import Mathlib

/-!
Verification development for the AI navigation repository.

This file embeds, in Lean, the pure computational core of the repository:

* `src/src/ai_navigator/ai_provider.py` — the provider layer
  (`ClaudeProvider`, `OpenAICompatibleProvider`, `create_ai_provider`):
  prompt construction, the `_parse_json_response` extraction logic (a direct
  `json.loads` attempt followed by a `re.search` for the regex
  `\x7b[^\x7d]+\x7d`), the deterministic navigation-URL assembly, and the
  conversation-context state.
* `src/ai_parser.py` — the pydantic `NavigationIntent` model and the
  validation performed by constructing it from a parsed JSON object.
* `src/main.py` — `AINavigationSystem._parse_with_regex`, the deterministic
  regex fallback parser.

The JSON layer (`json.loads` / `json.dumps` of the Python standard library,
which the repository calls) is embedded for the fragment of JSON the
repository exercises: strings, integers, arrays and objects.  Floats and the
literals `true` / `false` / `null` are outside the fragment; every concrete
text evaluated in this file stays inside the fragment, and on such texts the
embedded functions agree with the Python originals.  `json.dumps` is embedded
in its `ensure_ascii=False` form (the form the repository uses when it
serializes values): a string is escaped only at `"`, backslash and control
characters.  Python `dict`s are represented as association lists; `json.loads`
builds objects with Python's insert-or-overwrite-in-place semantics
(`insertPair` below), so duplicate keys collapse exactly as in Python.

Machine integers do not occur in the embedded fragment; all arithmetic is on
`Nat`/`Int`.  Errors (`raise` in Python) are embedded as `Except String`.
-/

/-- JSON values in the fragment the repository exercises. -/
inductive Jv where
  | str : String → Jv
  | num : Int → Jv
  | arr : List Jv → Jv
  | obj : List (String × Jv) → Jv
deriving Repr

/-- Association-list lookup, first match: Python `dict` access for dicts
built by `insertPair`, whose keys are distinct. -/
def jlookup (fs : List (String × Jv)) (k : String) : Option Jv :=
  match fs with
  | [] => none
  | (k', v) :: rest => if k' = k then some v else jlookup rest k

/-- Python `dict.get(k, d)`. -/
def jget (fs : List (String × Jv)) (k : String) (d : Jv) : Jv :=
  match jlookup fs k with
  | some v => v
  | none => d

/-- Python `d[k] = v` on an insertion-ordered dict: overwrite in place if the
key exists, append otherwise. -/
def insertPair (fs : List (String × Jv)) (k : String) (v : Jv) : List (String × Jv) :=
  match fs with
  | [] => [(k, v)]
  | (k', v') :: rest =>
    if k' = k then (k', v) :: rest else (k', v') :: insertPair rest k v

/-- Fold a parsed member list into a dict, Python style. -/
def insertAll (acc : List (String × Jv)) (ps : List (String × Jv)) : List (String × Jv) :=
  match ps with
  | [] => acc
  | (k, v) :: rest => insertAll (insertPair acc k v) rest

/-! ### Digits and numbers (`str(int)` / JSON number grammar) -/

/-- The decimal digit character for `d < 10`. -/
def digitChar (d : Nat) : Char := Char.ofNat (48 + d)

/-- Decimal digits of `n`, most significant first; `str(n)` for a `Nat`. -/
def natDigits (n : Nat) : List Char :=
  if _h : n < 10 then [digitChar n]
  else natDigits (n / 10) ++ [digitChar (n % 10)]
decreasing_by exact Nat.div_lt_self (by omega) (by omega)

/-- `str(n)` for a Python `int`, as a character list. -/
def intChars (n : Int) : List Char :=
  if n < 0 then '-' :: natDigits n.natAbs else natDigits n.toNat

/-- `str(n)` for a Python `int`. -/
def intToString (n : Int) : String := String.mk (intChars n)

/-- Lowercase hexadecimal digit for `d < 16` (Python `'%x'`). -/
def hexDigit (d : Nat) : Char :=
  if d < 10 then Char.ofNat (48 + d) else Char.ofNat (87 + d)

/-- Value of a hexadecimal digit character, if it is one. -/
def hexVal (c : Char) : Option Nat :=
  if 48 ≤ c.toNat ∧ c.toNat ≤ 57 then some (c.toNat - 48)
  else if 97 ≤ c.toNat ∧ c.toNat ≤ 102 then some (c.toNat - 87)
  else if 65 ≤ c.toNat ∧ c.toNat ≤ 70 then some (c.toNat - 55)
  else none

/-! ### String escaping (`json.dumps`, `ensure_ascii=False`) -/

/-- Escape one character as `json.dumps(..., ensure_ascii=False)` does:
`"` and `\` get a backslash, the five short control escapes are used where
Python uses them, remaining control characters become `\u00XX`, and every
other character is emitted verbatim. -/
def escChar (c : Char) : List Char :=
  if c = '"' then ['\\', '"']
  else if c = '\\' then ['\\', '\\']
  else if c = '\n' then ['\\', 'n']
  else if c = '\t' then ['\\', 't']
  else if c = '\r' then ['\\', 'r']
  else if c = Char.ofNat 8 then ['\\', 'b']
  else if c = Char.ofNat 12 then ['\\', 'f']
  else if c.toNat < 32 then
    ['\\', 'u', '0', '0', hexDigit (c.toNat / 16), hexDigit (c.toNat % 16)]
  else [c]

/-- Escape a character list. -/
def escChars (cs : List Char) : List Char := cs.flatMap escChar

/-! ### `json.dumps` (default separators, no indent) -/

mutual

/-- `json.dumps(v, ensure_ascii=False)` with default separators, as a
character list. -/
def dumpsL : Jv → List Char
  | .str s => '"' :: (escChars s.data ++ ['"'])
  | .num n => intChars n
  | .arr vs => '[' :: (dumpsArr vs ++ [']'])
  | .obj fs => '{' :: (dumpsObj fs ++ ['}'])

/-- Comma-joined element list of an array. -/
def dumpsArr : List Jv → List Char
  | [] => []
  | v :: vs => dumpsL v ++ dumpsArrSep vs

/-- Remaining elements, each preceded by the `", "` separator. -/
def dumpsArrSep : List Jv → List Char
  | [] => []
  | v :: vs => ',' :: ' ' :: (dumpsL v ++ dumpsArrSep vs)

/-- Comma-joined member list of an object; one member is `"key": value`. -/
def dumpsObj : List (String × Jv) → List Char
  | [] => []
  | (k, v) :: fs =>
    '"' :: (escChars k.data ++ '"' :: ':' :: ' ' :: dumpsL v) ++ dumpsObjSep fs

/-- Remaining members, each preceded by the `", "` separator. -/
def dumpsObjSep : List (String × Jv) → List Char
  | [] => []
  | (k, v) :: fs =>
    ',' :: ' ' :: ('"' :: (escChars k.data ++ '"' :: ':' :: ' ' :: dumpsL v) ++ dumpsObjSep fs)

end

/-- `json.dumps(v, ensure_ascii=False)` as a `String`. -/
def dumpsStr (v : Jv) : String := String.mk (dumpsL v)

/-! ### Well-formedness: the image of Python values

A Python `dict` cannot carry duplicate keys, so the JSON value of a Python
object always has pairwise distinct keys, recursively.  `wfJ` is this
condition; it delimits the values that `json.dumps` can be applied to. -/

/-- Keys of an object member list. -/
def keysOf (fs : List (String × Jv)) : List String := fs.map Prod.fst

mutual

/-- The value is the image of a Python value: object keys are pairwise
distinct, recursively. -/
def wfJ : Jv → Bool
  | .str _ => true
  | .num _ => true
  | .arr vs => wfArr vs
  | .obj fs => (keysOf fs).Nodup && wfFields fs

/-- All array elements well-formed. -/
def wfArr : List Jv → Bool
  | [] => true
  | v :: vs => wfJ v && wfArr vs

/-- All member values well-formed. -/
def wfFields : List (String × Jv) → Bool
  | [] => true
  | (_, v) :: fs => wfJ v && wfFields fs

end

/-! ### `json.loads`

A fuel-indexed recursive-descent parser.  Fuel only bounds the nesting of the
recursion; `loadsL` supplies more fuel than any input can consume.  The
parser is a single structural recursion on the fuel (a pack of five functions
built level by level), so the kernel can evaluate it on concrete input. -/

/-- JSON whitespace (`json.decoder`): space, tab, newline, carriage return. -/
def isJWs (c : Char) : Bool := c = ' ' || c = '\t' || c = '\n' || c = '\r'

/-- Drop leading JSON whitespace. -/
def skipWs (s : List Char) : List Char := s.dropWhile isJWs

/-- Parse the body of a JSON string after the opening quote: returns the
decoded characters and the input after the closing quote.  Raw control
characters are rejected (Python `strict=True`); recognized escapes are the
JSON ones. -/
def parseStringBody : List Char → Option (List Char × List Char)
  | [] => none
  | '"' :: rest => some ([], rest)
  | '\\' :: 'u' :: h1 :: h2 :: h3 :: h4 :: rest =>
    match hexVal h1, hexVal h2, hexVal h3, hexVal h4 with
    | some a, some b, some c, some d =>
      (parseStringBody rest).map fun (cs, r) =>
        (Char.ofNat (((a * 16 + b) * 16 + c) * 16 + d) :: cs, r)
    | _, _, _, _ => none
  | '\\' :: e :: rest =>
    match
      (if e = '"' then some '"'
       else if e = '\\' then some '\\'
       else if e = '/' then some '/'
       else if e = 'n' then some '\n'
       else if e = 't' then some '\t'
       else if e = 'r' then some '\r'
       else if e = 'b' then some (Char.ofNat 8)
       else if e = 'f' then some (Char.ofNat 12)
       else none) with
    | some c => (parseStringBody rest).map fun (cs, r) => (c :: cs, r)
    | none => none
  | c :: rest =>
    if c.toNat < 32 then none
    else (parseStringBody rest).map fun (cs, r) => (c :: cs, r)

/-- Numeric value of a digit list. -/
def natOfDigits (ds : List Char) : Nat :=
  ds.foldl (fun a c => a * 10 + (c.toNat - 48)) 0

/-- Parse a nonempty run of decimal digits from the front. -/
def parseNatFrom (s : List Char) : Option (Nat × List Char) :=
  let ds := s.takeWhile Char.isDigit
  if ds.isEmpty then none
  else some (natOfDigits ds, s.dropWhile Char.isDigit)

/-- Parse a JSON integer (optional sign, digit run) from the front. -/
def parseIntFrom (s : List Char) : Option (Int × List Char) :=
  match s with
  | [] => none
  | c :: rest =>
    if c = '-' then (parseNatFrom rest).map fun (n, r) => (-(n : Int), r)
    else (parseNatFrom (c :: rest)).map fun (n, r) => ((n : Int), r)

/-- The five mutually recursive entry points of the JSON grammar, at one fuel
level. -/
structure ParserPack where
  val : List Char → Option (Jv × List Char)
  arrBody : List Char → Option (List Jv × List Char)
  arrRest : List Char → Option (List Jv × List Char)
  objBody : List Char → Option (List (String × Jv) × List Char)
  objRest : List Char → Option (List (String × Jv) × List Char)

/-- Zero-fuel pack: everything fails. -/
def parserZero : ParserPack :=
  ⟨fun _ => none, fun _ => none, fun _ => none, fun _ => none, fun _ => none⟩

/-- Parse one object member after its opening quote: key body, colon
(with surrounding whitespace), then a value via `P.val`. -/
def objMemberCont (P : ParserPack) (rest : List Char) :
    Option ((String × Jv) × List Char) :=
  match parseStringBody rest with
  | some (k, r) =>
    match skipWs r with
    | ':' :: r' =>
      match P.val r' with
      | some (v, r'') => some ((String.mk k, v), r'')
      | none => none
    | _ => none
  | none => none

/-- One value (after whitespace), over the previous recursion level `P`. -/
def pvalStep (P : ParserPack) (s : List Char) : Option (Jv × List Char) :=
  match skipWs s with
  | '"' :: rest =>
    (parseStringBody rest).map fun (cs, r) => (Jv.str (String.mk cs), r)
  | '{' :: rest =>
    (P.objBody rest).map fun (ps, r) => (Jv.obj (insertAll [] ps), r)
  | '[' :: rest =>
    (P.arrBody rest).map fun (vs, r) => (Jv.arr vs, r)
  | c :: rest =>
    if c = '-' || c.isDigit then
      (parseIntFrom (c :: rest)).map fun (n, r) => (Jv.num n, r)
    else none
  | [] => none

/-- What follows a `[`: empty array or first element. -/
def parrBodyStep (P : ParserPack) (s : List Char) : Option (List Jv × List Char) :=
  match skipWs s with
  | ']' :: rest => some ([], rest)
  | s' =>
    match P.val s' with
    | some (v, r) => (P.arrRest r).map fun (vs, r') => (v :: vs, r')
    | none => none

/-- What follows a parsed array element: close bracket or comma and more. -/
def parrRestStep (P : ParserPack) (s : List Char) : Option (List Jv × List Char) :=
  match skipWs s with
  | ']' :: rest => some ([], rest)
  | ',' :: rest =>
    match P.val rest with
    | some (v, r) => (P.arrRest r).map fun (vs, r') => (v :: vs, r')
    | none => none
  | _ => none

/-- What follows a `{`: empty object or first member.  Members are returned
in input order; `pvalStep` folds them into a dict. -/
def pobjBodyStep (P : ParserPack) (s : List Char) :
    Option (List (String × Jv) × List Char) :=
  match skipWs s with
  | '}' :: rest => some ([], rest)
  | '"' :: rest =>
    match objMemberCont P rest with
    | some (kv, r) => (P.objRest r).map fun (ps, r₃) => (kv :: ps, r₃)
    | none => none
  | _ => none

/-- What follows a parsed object member: close brace or comma and more. -/
def pobjRestStep (P : ParserPack) (s : List Char) :
    Option (List (String × Jv) × List Char) :=
  match skipWs s with
  | '}' :: rest => some ([], rest)
  | ',' :: rest =>
    match skipWs rest with
    | '"' :: rest' =>
      match objMemberCont P rest' with
      | some (kv, r) => (P.objRest r).map fun (ps, r₃) => (kv :: ps, r₃)
      | none => none
    | _ => none
  | _ => none

/-- One recursion level of the JSON grammar over the previous level `P`. -/
def parserStep (P : ParserPack) : ParserPack :=
  ⟨pvalStep P, parrBodyStep P, parrRestStep P, pobjBodyStep P, pobjRestStep P⟩

/-- The parser pack with the given amount of fuel. -/
def parsers : Nat → ParserPack
  | 0 => parserZero
  | fuel + 1 => parserStep (parsers fuel)

/-- Parse one JSON value from the front (with fuel). -/
def parseVal (fuel : Nat) (s : List Char) : Option (Jv × List Char) :=
  (parsers fuel).val s

/-- `json.loads` on a character list: one document, optionally surrounded by
whitespace.  `length + 1` fuel exceeds any possible nesting. -/
def loadsL (s : List Char) : Option Jv :=
  match parseVal (s.length + 1) s with
  | some (v, rest) => if skipWs rest = [] then some v else none
  | none => none

/-- `json.loads` on a `String`. -/
def loads (s : String) : Option Jv := loadsL s.data

/-! ### Support lemmas: digits -/

theorem digitChar_isDigit {d : Nat} (h : d < 10) : (digitChar d).isDigit = true := by
  interval_cases d <;> decide

theorem digitChar_toNat {d : Nat} (h : d < 10) : (digitChar d).toNat = 48 + d := by
  interval_cases d <;> decide

theorem natDigits_ne_nil (n : Nat) : natDigits n ≠ [] := by
  rw [natDigits]
  split
  · simp
  · simp

theorem natDigits_all_digits (n : Nat) : ∀ c ∈ natDigits n, c.isDigit = true := by
  induction n using Nat.strong_induction_on with
  | _ n ih =>
    rw [natDigits]
    split
    · simpa using digitChar_isDigit ‹n < 10›
    · intro c hc
      rcases List.mem_append.mp hc with h | h
      · exact ih (n / 10) (Nat.div_lt_self (by omega) (by omega)) c h
      · simp at h
        subst h
        exact digitChar_isDigit (Nat.mod_lt _ (by omega))

theorem natDigits_foldl (n : Nat) : ∀ acc : Nat,
    (natDigits n).foldl (fun a c => a * 10 + (c.toNat - 48)) acc =
      acc * 10 ^ (natDigits n).length + n := by
  induction n using Nat.strong_induction_on with
  | _ n ih =>
    intro acc
    rw [natDigits]
    split
    · simp [digitChar_toNat ‹n < 10›]
    · rw [List.foldl_append, List.length_append,
        ih (n / 10) (Nat.div_lt_self (by omega) (by omega)) acc]
      simp only [List.foldl_cons, List.foldl_nil, List.length_cons, List.length_nil]
      rw [digitChar_toNat (show n % 10 < 10 from Nat.mod_lt n (by omega))]
      rw [pow_succ, ← mul_assoc]
      omega

theorem natOfDigits_natDigits (n : Nat) : natOfDigits (natDigits n) = n := by
  simp [natOfDigits, natDigits_foldl]

/-- `takeWhile` passes over a prefix that satisfies the predicate. -/
theorem takeWhile_append_all {p : Char → Bool} {xs ys : List Char}
    (h : ∀ x ∈ xs, p x) : (xs ++ ys).takeWhile p = xs ++ ys.takeWhile p := by
  induction xs with
  | nil => simp
  | cons a l ih => simp_all [List.takeWhile_cons]

/-- `dropWhile` passes over a prefix that satisfies the predicate. -/
theorem dropWhile_append_all {p : Char → Bool} {xs ys : List Char}
    (h : ∀ x ∈ xs, p x) : (xs ++ ys).dropWhile p = ys.dropWhile p := by
  induction xs with
  | nil => simp
  | cons a l ih => simp_all [List.dropWhile_cons]

/-- The rest of the input does not begin with a decimal digit. -/
def headNotDigit (r : List Char) : Bool :=
  match r with
  | [] => true
  | c :: _ => !c.isDigit

theorem takeWhile_headNotDigit {r : List Char} (h : headNotDigit r = true) :
    r.takeWhile Char.isDigit = [] := by
  cases r with
  | nil => rfl
  | cons c l => simp_all [headNotDigit, List.takeWhile_cons]

theorem dropWhile_headNotDigit {r : List Char} (h : headNotDigit r = true) :
    r.dropWhile Char.isDigit = r := by
  cases r with
  | nil => rfl
  | cons c l => simp_all [headNotDigit, List.dropWhile_cons]

theorem parseNatFrom_digits (n : Nat) {rest : List Char}
    (h : headNotDigit rest = true) :
    parseNatFrom (natDigits n ++ rest) = some (n, rest) := by
  unfold parseNatFrom
  rw [takeWhile_append_all (natDigits_all_digits n),
    dropWhile_append_all (natDigits_all_digits n),
    takeWhile_headNotDigit h, dropWhile_headNotDigit h]
  simp [natDigits_ne_nil n, natOfDigits_natDigits]


theorem parseIntFrom_intChars (n : Int) {rest : List Char}
    (h : headNotDigit rest = true) :
    parseIntFrom (intChars n ++ rest) = some (n, rest) := by
  have hred : ∀ t : List Char,
      parseIntFrom ('-' :: t) = (parseNatFrom t).map fun (m, r) => (-(m : Int), r) :=
    fun _ => rfl
  unfold intChars
  split
  · rw [List.cons_append, hred, parseNatFrom_digits _ h]
    show some (-(n.natAbs : Int), rest) = some (n, rest)
    have : (-(n.natAbs : Int)) = n := by omega
    rw [this]
  · obtain ⟨c, t, hct⟩ := List.exists_cons_of_ne_nil (natDigits_ne_nil n.toNat)
    have hdig : c.isDigit = true := natDigits_all_digits n.toNat c (hct ▸ List.mem_cons_self c t)
    have hnd : c ≠ '-' := by
      intro he
      rw [he] at hdig
      exact absurd hdig (by decide)
    have hred2 : parseIntFrom (c :: (t ++ rest)) =
        (parseNatFrom (c :: (t ++ rest))).map fun (m, r) => ((m : Int), r) := by
      rw [parseIntFrom, if_neg hnd]
    rw [hct, List.cons_append, hred2, ← List.cons_append, ← hct, parseNatFrom_digits _ h]
    show some ((n.toNat : Int), rest) = some (n, rest)
    have : ((n.toNat : Int)) = n := by omega
    rw [this]

/-! ### Support lemmas: string escaping round trip -/

theorem hexVal_hexDigit {d : Nat} (h : d < 16) : hexVal (hexDigit d) = some d := by
  interval_cases d <;> decide

/-- `parseStringBody` passes an ordinary (unescaped, non-control,
non-delimiter) character through. -/
theorem parseStringBody_plain {c : Char} (h1 : c ≠ '"') (h2 : c ≠ '\\')
    (h3 : ¬ c.toNat < 32) (t : List Char) :
    parseStringBody (c :: t) = (parseStringBody t).map fun (cs, r) => (c :: cs, r) := by
  rw [parseStringBody.eq_def]
  split
  · rename_i heq
    exact absurd heq (by simp)
  · rename_i heq
    injection heq with hc _
    exact absurd hc h1
  · rename_i heq
    injection heq with hc _
    exact absurd hc h2
  · rename_i heq
    injection heq with hc _
    exact absurd hc h2
  · rename_i c' t' heq
    injection heq with hc htl
    subst hc
    subst htl
    rw [if_neg h3]

theorem parseStringBody_esc (cs rest : List Char) :
    parseStringBody (escChars cs ++ '"' :: rest) = some (cs, rest) := by
  induction cs with
  | nil => rfl
  | cons c cs ih =>
    have hesc : escChars (c :: cs) = escChar c ++ escChars cs := by
      simp [escChars]
    rw [hesc, List.append_assoc]
    unfold escChar
    split_ifs with h1 h2 h3 h4 h5 h6 h7 h8
    · subst h1
      show parseStringBody ('\\' :: '"' :: (escChars cs ++ '"' :: rest)) = _
      simp [parseStringBody, ih]
    · subst h2
      show parseStringBody ('\\' :: '\\' :: (escChars cs ++ '"' :: rest)) = _
      simp [parseStringBody, ih]
    · subst h3
      show parseStringBody ('\\' :: 'n' :: (escChars cs ++ '"' :: rest)) = _
      simp [parseStringBody, ih]
    · subst h4
      show parseStringBody ('\\' :: 't' :: (escChars cs ++ '"' :: rest)) = _
      simp [parseStringBody, ih]
    · subst h5
      show parseStringBody ('\\' :: 'r' :: (escChars cs ++ '"' :: rest)) = _
      simp [parseStringBody, ih]
    · subst h6
      show parseStringBody ('\\' :: 'b' :: (escChars cs ++ '"' :: rest)) = _
      simp [parseStringBody, ih]
    · subst h7
      show parseStringBody ('\\' :: 'f' :: (escChars cs ++ '"' :: rest)) = _
      simp [parseStringBody, ih]
    · show parseStringBody ('\\' :: 'u' :: '0' :: '0' ::
        hexDigit (c.toNat / 16) :: hexDigit (c.toNat % 16) ::
        (escChars cs ++ '"' :: rest)) = _
      have h0 : hexVal '0' = some 0 := rfl
      have hv1 : hexVal (hexDigit (c.toNat / 16)) = some (c.toNat / 16) :=
        hexVal_hexDigit (by omega)
      have hv2 : hexVal (hexDigit (c.toNat % 16)) = some (c.toNat % 16) :=
        hexVal_hexDigit (Nat.mod_lt _ (by omega))
      simp [parseStringBody, h0, hv1, hv2, ih]
      have hval : c.toNat / 16 * 16 + c.toNat % 16 = c.toNat := by omega
      rw [hval, Char.ofNat_toNat]
    · rw [List.singleton_append, parseStringBody_plain h1 h2 h8, ih]
      rfl

/-! ### Fuel accounting for the parser -/

mutual

/-- Fuel sufficient to parse the serialization of a value. -/
def needV : Jv → Nat
  | .str _ => 1
  | .num _ => 1
  | .arr vs => 1 + needA vs
  | .obj fs => 1 + needO fs

/-- Fuel sufficient for the element list of an array. -/
def needA : List Jv → Nat
  | [] => 1
  | v :: vs => 1 + max (needV v) (needA vs)

/-- Fuel sufficient for the member list of an object. -/
def needO : List (String × Jv) → Nat
  | [] => 1
  | (_, v) :: fs => 1 + max (needV v) (needO fs)

end

theorem needV_pos (O : Jv) : 1 ≤ needV O := by
  cases O <;> simp [needV]

theorem needA_pos (vs : List Jv) : 1 ≤ needA vs := by
  cases vs <;> simp [needA]

theorem needO_pos (fs : List (String × Jv)) : 1 ≤ needO fs := by
  cases fs with
  | nil => simp [needO]
  | cons p fs => obtain ⟨k, v⟩ := p; simp [needO]

/-! ### Heads of serializations -/

/-- The first character of any serialized value is a value-start character. -/
def valStart (c : Char) : Prop :=
  c = '"' ∨ c = '{' ∨ c = '[' ∨ c = '-' ∨ c.isDigit = true

theorem valStart_not_special {c : Char} (h : valStart c) :
    isJWs c = false ∧ c ≠ ']' ∧ c ≠ '}' ∧ c ≠ ',' ∧ c ≠ ':' := by
  rcases h with h | h | h | h | h
  · subst h; refine ⟨by decide, by decide, by decide, by decide, by decide⟩
  · subst h; refine ⟨by decide, by decide, by decide, by decide, by decide⟩
  · subst h; refine ⟨by decide, by decide, by decide, by decide, by decide⟩
  · subst h; refine ⟨by decide, by decide, by decide, by decide, by decide⟩
  · refine ⟨?_, ?_, ?_, ?_, ?_⟩
    · simp only [isJWs]
      have h1 : c ≠ ' ' := fun he => absurd (he ▸ h) (by decide)
      have h2 : c ≠ '\t' := fun he => absurd (he ▸ h) (by decide)
      have h3 : c ≠ '\n' := fun he => absurd (he ▸ h) (by decide)
      have h4 : c ≠ '\r' := fun he => absurd (he ▸ h) (by decide)
      simp_all
    · exact fun he => absurd (he ▸ h) (by decide)
    · exact fun he => absurd (he ▸ h) (by decide)
    · exact fun he => absurd (he ▸ h) (by decide)
    · exact fun he => absurd (he ▸ h) (by decide)

theorem dumps_head (O : Jv) :
    ∃ c t, dumpsL O = c :: t ∧ valStart c := by
  cases O with
  | str s =>
    exact ⟨'"', escChars s.data ++ ['"'], by simp [dumpsL], Or.inl rfl⟩
  | num n =>
    unfold dumpsL intChars
    split
    · exact ⟨'-', _, rfl, Or.inr (Or.inr (Or.inr (Or.inl rfl)))⟩
    · obtain ⟨c, t, hct⟩ := List.exists_cons_of_ne_nil (natDigits_ne_nil n.toNat)
      refine ⟨c, t, hct, Or.inr (Or.inr (Or.inr (Or.inr ?_)))⟩
      exact natDigits_all_digits n.toNat c (hct ▸ List.mem_cons_self c t)
  | arr vs =>
    exact ⟨'[', dumpsArr vs ++ [']'], by simp [dumpsL], Or.inr (Or.inr (Or.inl rfl))⟩
  | obj fs =>
    exact ⟨'{', dumpsObj fs ++ ['}'], by simp [dumpsL], Or.inr (Or.inl rfl)⟩

theorem dumpsL_length_pos (O : Jv) : 1 ≤ (dumpsL O).length := by
  obtain ⟨c, t, hct, _⟩ := dumps_head O
  simp [hct]

/-! ### Fuel bounds: the serialization is longer than the fuel it needs -/

mutual

theorem needV_le (O : Jv) : needV O ≤ (dumpsL O).length := by
  cases O with
  | str s => simp [needV, dumpsL]
  | num n => simpa [needV] using dumpsL_length_pos (.num n)
  | arr vs =>
    have := needA_le vs
    simp only [needV, dumpsL, List.length_cons, List.length_append]
    simp
    omega
  | obj fs =>
    have := needO_le fs
    simp only [needV, dumpsL, List.length_cons, List.length_append]
    simp
    omega

theorem needA_le (vs : List Jv) : needA vs ≤ (dumpsArr vs).length + 1 := by
  cases vs with
  | nil => simp [needA, dumpsArr]
  | cons v vs =>
    have h1 := needV_le v
    have h2 := needASep_le vs
    have h3 := dumpsL_length_pos v
    simp only [needA, dumpsArr, List.length_append]
    omega

theorem needASep_le (vs : List Jv) : needA vs ≤ (dumpsArrSep vs).length + 1 := by
  cases vs with
  | nil => simp [needA, dumpsArrSep]
  | cons v vs =>
    have h1 := needV_le v
    have h2 := needASep_le vs
    simp only [needA, dumpsArrSep, List.length_cons, List.length_append]
    omega

theorem needO_le (fs : List (String × Jv)) : needO fs ≤ (dumpsObj fs).length + 1 := by
  cases fs with
  | nil => simp [needO, dumpsObj]
  | cons p fs =>
    obtain ⟨k, v⟩ := p
    have h1 := needV_le v
    have h2 := needOSep_le fs
    simp only [needO, dumpsObj, List.length_append, List.length_cons]
    omega

theorem needOSep_le (fs : List (String × Jv)) : needO fs ≤ (dumpsObjSep fs).length + 1 := by
  cases fs with
  | nil => simp [needO, dumpsObjSep]
  | cons p fs =>
    obtain ⟨k, v⟩ := p
    have h1 := needV_le v
    have h2 := needOSep_le fs
    simp only [needO, dumpsObjSep, List.length_append, List.length_cons]
    omega

end

/-! ### Parser dispatch lemmas -/

theorem skipWs_cons_false {c : Char} (h : isJWs c = false) (t : List Char) :
    skipWs (c :: t) = c :: t := by
  simp [skipWs, List.dropWhile_cons, h]

theorem skipWs_cons_true {c : Char} (h : isJWs c = true) (t : List Char) :
    skipWs (c :: t) = skipWs t := by
  simp [skipWs, List.dropWhile_cons, h]

theorem pvalStep_ws (P : ParserPack) {c : Char} (h : isJWs c = true)
    (t : List Char) : pvalStep P (c :: t) = pvalStep P t := by
  unfold pvalStep
  rw [skipWs_cons_true h]

theorem parseVal_ws {c : Char} (h : isJWs c = true) (fuel : Nat) (t : List Char) :
    parseVal fuel (c :: t) = parseVal fuel t := by
  cases fuel with
  | zero => rfl
  | succ fuel => exact pvalStep_ws (parsers fuel) h t

theorem pvalStep_quote (P : ParserPack) (t : List Char) :
    pvalStep P ('"' :: t) =
      (parseStringBody t).map fun (cs, r) => (Jv.str (String.mk cs), r) := rfl

theorem pvalStep_lcurly (P : ParserPack) (t : List Char) :
    pvalStep P ('{' :: t) =
      (P.objBody t).map fun (ps, r) => (Jv.obj (insertAll [] ps), r) := rfl

theorem pvalStep_lbrack (P : ParserPack) (t : List Char) :
    pvalStep P ('[' :: t) =
      (P.arrBody t).map fun (vs, r) => (Jv.arr vs, r) := rfl

theorem pvalStep_other (P : ParserPack) {c : Char} (hw : isJWs c = false)
    (h1 : c ≠ '"') (h2 : c ≠ '{') (h3 : c ≠ '[') (t : List Char) :
    pvalStep P (c :: t) =
      if c = '-' || c.isDigit then
        (parseIntFrom (c :: t)).map fun (n, r) => (Jv.num n, r)
      else none := by
  unfold pvalStep
  rw [skipWs_cons_false hw]
  split
  · rename_i heq
    injection heq with hc _
    exact absurd hc h1
  · rename_i heq
    injection heq with hc _
    exact absurd hc h2
  · rename_i heq
    injection heq with hc _
    exact absurd hc h3
  · rename_i heq
    injection heq with hc htl
    subst hc
    subst htl
    rfl
  · rename_i heq
    exact absurd heq (by simp)

theorem parrBodyStep_rbrack (P : ParserPack) (t : List Char) :
    parrBodyStep P (']' :: t) = some ([], t) := rfl

theorem parrBodyStep_cons (P : ParserPack) {c : Char} (hw : isJWs c = false)
    (hb : c ≠ ']') (t : List Char) :
    parrBodyStep P (c :: t) =
      match P.val (c :: t) with
      | some (v, r) => (P.arrRest r).map fun (vs, r') => (v :: vs, r')
      | none => none := by
  unfold parrBodyStep
  rw [skipWs_cons_false hw]
  split
  · rename_i heq
    injection heq with hc _
    exact absurd hc hb
  · rfl

theorem parrRestStep_rbrack (P : ParserPack) (t : List Char) :
    parrRestStep P (']' :: t) = some ([], t) := rfl

theorem parrRestStep_comma (P : ParserPack) (t : List Char) :
    parrRestStep P (',' :: t) =
      match P.val t with
      | some (v, r) => (P.arrRest r).map fun (vs, r') => (v :: vs, r')
      | none => none := rfl

theorem pobjBodyStep_rbrace (P : ParserPack) (t : List Char) :
    pobjBodyStep P ('}' :: t) = some ([], t) := rfl

theorem pobjBodyStep_quote (P : ParserPack) (t : List Char) :
    pobjBodyStep P ('"' :: t) =
      match objMemberCont P t with
      | some (kv, r) => (P.objRest r).map fun (ps, r₃) => (kv :: ps, r₃)
      | none => none := rfl

theorem pobjRestStep_rbrace (P : ParserPack) (t : List Char) :
    pobjRestStep P ('}' :: t) = some ([], t) := rfl

theorem pobjRestStep_comma_quote (P : ParserPack) (u t : List Char)
    (hu : skipWs u = '"' :: t) :
    pobjRestStep P (',' :: u) =
      match objMemberCont P t with
      | some (kv, r) => (P.objRest r).map fun (ps, r₃) => (kv :: ps, r₃)
      | none => none := by
  have hcomma : skipWs (',' :: u) = ',' :: u := rfl
  unfold pobjRestStep
  rw [hcomma]
  simp only [hu]

/-- Parsing one serialized object member, given that the value parser works
on the serialized value. -/
theorem objMemberCont_dumps (P : ParserPack) (k : String) (v : Jv)
    (tail : List Char)
    (hval : P.val (' ' :: (dumpsL v ++ tail)) = some (v, tail)) :
    objMemberCont P (escChars k.data ++ '"' :: ':' :: ' ' :: (dumpsL v ++ tail)) =
      some ((k, v), tail) := by
  have hcolon : skipWs (':' :: ' ' :: (dumpsL v ++ tail)) =
      ':' :: ' ' :: (dumpsL v ++ tail) := rfl
  unfold objMemberCont
  rw [parseStringBody_esc]
  simp only [hcolon, hval]

/-! ### Dict insertion of distinct keys -/

theorem insertPair_notMem {acc : List (String × Jv)} {k : String} (v : Jv)
    (h : k ∉ keysOf acc) : insertPair acc k v = acc ++ [(k, v)] := by
  induction acc with
  | nil => rfl
  | cons p acc ih =>
    obtain ⟨k', v'⟩ := p
    simp [keysOf] at h
    unfold insertPair
    rw [if_neg (Ne.symm h.1)]
    rw [ih (by simp [keysOf]; exact h.2)]
    simp

theorem insertAll_nodup (fs : List (String × Jv)) : ∀ acc : List (String × Jv),
    (keysOf (acc ++ fs)).Nodup → insertAll acc fs = acc ++ fs := by
  induction fs with
  | nil => intro acc _; simp [insertAll]
  | cons p fs ih =>
    intro acc hnd
    obtain ⟨k, v⟩ := p
    have hkeys : keysOf (acc ++ (k, v) :: fs) = keysOf acc ++ k :: keysOf fs := by
      simp [keysOf]
    rw [hkeys] at hnd
    have hk : k ∉ keysOf acc := by
      intro hmem
      have := List.disjoint_of_nodup_append hnd hmem (by simp)
      exact this
    show insertAll (insertPair acc k v) fs = acc ++ (k, v) :: fs
    rw [insertPair_notMem v hk]
    rw [ih (acc ++ [(k, v)]) ?_]
    · simp
    · have : keysOf ((acc ++ [(k, v)]) ++ fs) = keysOf acc ++ k :: keysOf fs := by
        simp [keysOf]
      rw [this]
      exact hnd

/-! ### Heads of separators -/

theorem headNotDigit_arrSep (vs : List Jv) (rest : List Char) :
    headNotDigit (dumpsArrSep vs ++ ']' :: rest) = true := by
  cases vs with
  | nil =>
    have h : dumpsArrSep [] = [] := by simp [dumpsArrSep]
    rw [h, List.nil_append]
    rfl
  | cons v vs =>
    have h : dumpsArrSep (v :: vs) = ',' :: ' ' :: (dumpsL v ++ dumpsArrSep vs) := by
      simp [dumpsArrSep]
    rw [h, List.cons_append]
    rfl

theorem headNotDigit_objSep (fs : List (String × Jv)) (rest : List Char) :
    headNotDigit (dumpsObjSep fs ++ '}' :: rest) = true := by
  cases fs with
  | nil =>
    have h : dumpsObjSep [] = [] := by simp [dumpsObjSep]
    rw [h, List.nil_append]
    rfl
  | cons p fs =>
    obtain ⟨k, v⟩ := p
    have h : dumpsObjSep ((k, v) :: fs) =
        ',' :: ' ' :: ('"' :: (escChars k.data ++ '"' :: ':' :: ' ' :: dumpsL v)
          ++ dumpsObjSep fs) := by
      simp [dumpsObjSep]
    rw [h, List.cons_append]
    rfl

theorem intChars_head (n : Int) :
    ∃ c t, intChars n = c :: t ∧ (c = '-' ∨ c.isDigit = true) := by
  unfold intChars
  split
  · exact ⟨'-', _, rfl, Or.inl rfl⟩
  · obtain ⟨c, t, hct⟩ := List.exists_cons_of_ne_nil (natDigits_ne_nil n.toNat)
    exact ⟨c, t, hct,
      Or.inr (natDigits_all_digits n.toNat c (hct ▸ List.mem_cons_self c t))⟩

theorem numStart_facts {c : Char} (h : c = '-' ∨ c.isDigit = true) :
    isJWs c = false ∧ c ≠ '"' ∧ c ≠ '{' ∧ c ≠ '[' ∧ (c = '-' || c.isDigit) = true := by
  rcases h with h | h
  · subst h
    refine ⟨by decide, by decide, by decide, by decide, by decide⟩
  · have hstart : valStart c := Or.inr (Or.inr (Or.inr (Or.inr h)))
    obtain ⟨hw, _, _, _, _⟩ := valStart_not_special hstart
    refine ⟨hw, ?_, ?_, ?_, by simp [h]⟩
    · exact fun he => absurd (he ▸ h) (by decide)
    · exact fun he => absurd (he ▸ h) (by decide)
    · exact fun he => absurd (he ▸ h) (by decide)

/-! ### The master round trip: parsing a serialization -/

theorem parseVal_succ_eq (fuel : Nat) (s : List Char) :
    (parsers (fuel + 1)).val s = pvalStep (parsers fuel) s := rfl

theorem parsers_arrBody_succ (fuel : Nat) (s : List Char) :
    (parsers (fuel + 1)).arrBody s = parrBodyStep (parsers fuel) s := rfl

theorem parsers_arrRest_succ (fuel : Nat) (s : List Char) :
    (parsers (fuel + 1)).arrRest s = parrRestStep (parsers fuel) s := rfl

theorem parsers_objBody_succ (fuel : Nat) (s : List Char) :
    (parsers (fuel + 1)).objBody s = pobjBodyStep (parsers fuel) s := rfl

theorem parsers_objRest_succ (fuel : Nat) (s : List Char) :
    (parsers (fuel + 1)).objRest s = pobjRestStep (parsers fuel) s := rfl

theorem parsersVal_ws (fuel : Nat) {c : Char} (h : isJWs c = true) (t : List Char) :
    (parsers fuel).val (c :: t) = (parsers fuel).val t := by
  cases fuel with
  | zero => rfl
  | succ fuel => exact pvalStep_ws (parsers fuel) h t

theorem parse_dumps_master (fuel : Nat) :
    (∀ O rest, wfJ O = true → headNotDigit rest = true → needV O ≤ fuel →
      (parsers fuel).val (dumpsL O ++ rest) = some (O, rest)) ∧
    (∀ vs rest, wfArr vs = true → needA vs ≤ fuel →
      (parsers fuel).arrBody (dumpsArr vs ++ ']' :: rest) = some (vs, rest)) ∧
    (∀ vs rest, wfArr vs = true → needA vs ≤ fuel →
      (parsers fuel).arrRest (dumpsArrSep vs ++ ']' :: rest) = some (vs, rest)) ∧
    (∀ fs rest, wfFields fs = true → needO fs ≤ fuel →
      (parsers fuel).objBody (dumpsObj fs ++ '}' :: rest) = some (fs, rest)) ∧
    (∀ fs rest, wfFields fs = true → needO fs ≤ fuel →
      (parsers fuel).objRest (dumpsObjSep fs ++ '}' :: rest) = some (fs, rest)) := by
  induction fuel with
  | zero =>
    refine ⟨?_, ?_, ?_, ?_, ?_⟩
    · intro O _ _ _ hneed
      exact absurd hneed (by have := needV_pos O; omega)
    · intro vs _ _ hneed
      exact absurd hneed (by have := needA_pos vs; omega)
    · intro vs _ _ hneed
      exact absurd hneed (by have := needA_pos vs; omega)
    · intro fs _ _ hneed
      exact absurd hneed (by have := needO_pos fs; omega)
    · intro fs _ _ hneed
      exact absurd hneed (by have := needO_pos fs; omega)
  | succ fuel ih =>
    obtain ⟨ihV, ihAB, ihAR, ihOB, ihOR⟩ := ih
    have memberVal : ∀ (v : Jv) (tail : List Char), wfJ v = true →
        headNotDigit tail = true → needV v ≤ fuel →
        (parsers fuel).val (' ' :: (dumpsL v ++ tail)) = some (v, tail) := by
      intro v tail hwf htail hneed
      rw [parsersVal_ws fuel (by decide)]
      exact ihV v tail hwf htail hneed
    refine ⟨?_, ?_, ?_, ?_, ?_⟩
    · -- one value
      intro O rest hwf hrest hneed
      cases O with
      | str s =>
        have hdm : dumpsL (Jv.str s) = '"' :: (escChars s.data ++ ['"']) := by
          simp [dumpsL]
        rw [hdm, List.cons_append, parseVal_succ_eq, pvalStep_quote,
          List.append_assoc, List.singleton_append, parseStringBody_esc]
        rfl
      | num n =>
        have hdm : dumpsL (Jv.num n) = intChars n := by simp [dumpsL]
        obtain ⟨c, t, hct, hc⟩ := intChars_head n
        obtain ⟨hw, h1, h2, h3, hcond⟩ := numStart_facts hc
        rw [hdm, hct, List.cons_append, parseVal_succ_eq, pvalStep_other _ hw h1 h2 h3,
          if_pos hcond, ← List.cons_append, ← hct, parseIntFrom_intChars n hrest]
        rfl
      | arr vs =>
        have hdm : dumpsL (Jv.arr vs) = '[' :: (dumpsArr vs ++ [']']) := by
          simp [dumpsL]
        have hwf' : wfArr vs = true := by simpa [wfJ] using hwf
        have hneed' : needA vs ≤ fuel := by
          have : needV (Jv.arr vs) = 1 + needA vs := by simp [needV]
          omega
        rw [hdm, List.cons_append, parseVal_succ_eq, pvalStep_lbrack,
          List.append_assoc, List.singleton_append, ihAB vs rest hwf' hneed']
        rfl
      | obj fs =>
        have hdm : dumpsL (Jv.obj fs) = '{' :: (dumpsObj fs ++ ['}']) := by
          simp [dumpsL]
        have hwf' : (keysOf fs).Nodup ∧ wfFields fs = true := by
          simpa [wfJ] using hwf
        have hneed' : needO fs ≤ fuel := by
          have : needV (Jv.obj fs) = 1 + needO fs := by simp [needV]
          omega
        rw [hdm, List.cons_append, parseVal_succ_eq, pvalStep_lcurly,
          List.append_assoc, List.singleton_append, ihOB fs rest hwf'.2 hneed']
        have hins : insertAll [] fs = fs := by
          have := insertAll_nodup fs [] (by simpa using hwf'.1)
          simpa using this
        simp [hins]
    · -- array body
      intro vs rest hwf hneed
      cases vs with
      | nil =>
        have hd : dumpsArr ([] : List Jv) = [] := by simp [dumpsArr]
        rw [hd, List.nil_append, parsers_arrBody_succ, parrBodyStep_rbrack]
      | cons v vs' =>
        have hd : dumpsArr (v :: vs') = dumpsL v ++ dumpsArrSep vs' := by
          simp [dumpsArr]
        have hwf1 : wfJ v = true := by
          have : wfArr (v :: vs') = (wfJ v && wfArr vs') := by simp [wfArr]
          rw [this] at hwf
          exact (Bool.and_eq_true_iff.mp hwf).1
        have hwf2 : wfArr vs' = true := by
          have : wfArr (v :: vs') = (wfJ v && wfArr vs') := by simp [wfArr]
          rw [this] at hwf
          exact (Bool.and_eq_true_iff.mp hwf).2
        have hneedv : needV v ≤ fuel := by
          have : needA (v :: vs') = 1 + max (needV v) (needA vs') := by simp [needA]
          omega
        have hneedvs : needA vs' ≤ fuel := by
          have : needA (v :: vs') = 1 + max (needV v) (needA vs') := by simp [needA]
          omega
        obtain ⟨c, t, hct, hstart⟩ := dumps_head v
        obtain ⟨hw, hbr, _, _, _⟩ := valStart_not_special hstart
        have hv := ihV v (dumpsArrSep vs' ++ ']' :: rest) hwf1
          (headNotDigit_arrSep vs' rest) hneedv
        rw [parsers_arrBody_succ, hd, List.append_assoc, hct, List.cons_append,
          parrBodyStep_cons _ hw hbr, ← List.cons_append, ← hct]
        simp only [hv, ihAR vs' rest hwf2 hneedvs, Option.map_some']
    · -- array rest
      intro vs rest hwf hneed
      cases vs with
      | nil =>
        have hd : dumpsArrSep ([] : List Jv) = [] := by simp [dumpsArrSep]
        rw [hd, List.nil_append, parsers_arrRest_succ, parrRestStep_rbrack]
      | cons v vs' =>
        have hd : dumpsArrSep (v :: vs') = ',' :: ' ' :: (dumpsL v ++ dumpsArrSep vs') := by
          simp [dumpsArrSep]
        have hwf1 : wfJ v = true := by
          have : wfArr (v :: vs') = (wfJ v && wfArr vs') := by simp [wfArr]
          rw [this] at hwf
          exact (Bool.and_eq_true_iff.mp hwf).1
        have hwf2 : wfArr vs' = true := by
          have : wfArr (v :: vs') = (wfJ v && wfArr vs') := by simp [wfArr]
          rw [this] at hwf
          exact (Bool.and_eq_true_iff.mp hwf).2
        have hneedv : needV v ≤ fuel := by
          have : needA (v :: vs') = 1 + max (needV v) (needA vs') := by simp [needA]
          omega
        have hneedvs : needA vs' ≤ fuel := by
          have : needA (v :: vs') = 1 + max (needV v) (needA vs') := by simp [needA]
          omega
        have hv := memberVal v (dumpsArrSep vs' ++ ']' :: rest) hwf1
          (headNotDigit_arrSep vs' rest) hneedv
        rw [parsers_arrRest_succ, hd, List.cons_append, List.cons_append,
          parrRestStep_comma, List.append_assoc]
        simp only [hv, ihAR vs' rest hwf2 hneedvs, Option.map_some']
    · -- object body
      intro fs rest hwf hneed
      cases fs with
      | nil =>
        have hd : dumpsObj ([] : List (String × Jv)) = [] := by simp [dumpsObj]
        rw [hd, List.nil_append, parsers_objBody_succ, pobjBodyStep_rbrace]
      | cons p fs' =>
        obtain ⟨k, v⟩ := p
        have hd : dumpsObj ((k, v) :: fs') =
            '"' :: (escChars k.data ++ '"' :: ':' :: ' ' :: dumpsL v) ++ dumpsObjSep fs' := by
          simp [dumpsObj]
        have hwf1 : wfJ v = true := by
          have : wfFields ((k, v) :: fs') = (wfJ v && wfFields fs') := by simp [wfFields]
          rw [this] at hwf
          exact (Bool.and_eq_true_iff.mp hwf).1
        have hwf2 : wfFields fs' = true := by
          have : wfFields ((k, v) :: fs') = (wfJ v && wfFields fs') := by simp [wfFields]
          rw [this] at hwf
          exact (Bool.and_eq_true_iff.mp hwf).2
        have hneedv : needV v ≤ fuel := by
          have : needO ((k, v) :: fs') = 1 + max (needV v) (needO fs') := by simp [needO]
          omega
        have hneedfs : needO fs' ≤ fuel := by
          have : needO ((k, v) :: fs') = 1 + max (needV v) (needO fs') := by simp [needO]
          omega
        have hval := memberVal v (dumpsObjSep fs' ++ '}' :: rest) hwf1
          (headNotDigit_objSep fs' rest) hneedv
        have hm := objMemberCont_dumps (parsers fuel) k v
          (dumpsObjSep fs' ++ '}' :: rest) hval
        rw [parsers_objBody_succ, hd]
        simp only [List.cons_append, List.append_assoc]
        rw [pobjBodyStep_quote]
        simp only [hm, ihOR fs' rest hwf2 hneedfs, Option.map_some']
    · -- object rest
      intro fs rest hwf hneed
      cases fs with
      | nil =>
        have hd : dumpsObjSep ([] : List (String × Jv)) = [] := by simp [dumpsObjSep]
        rw [hd, List.nil_append, parsers_objRest_succ, pobjRestStep_rbrace]
      | cons p fs' =>
        obtain ⟨k, v⟩ := p
        have hd : dumpsObjSep ((k, v) :: fs') =
            ',' :: ' ' :: ('"' :: (escChars k.data ++ '"' :: ':' :: ' ' :: dumpsL v)
              ++ dumpsObjSep fs') := by
          simp [dumpsObjSep]
        have hwf1 : wfJ v = true := by
          have : wfFields ((k, v) :: fs') = (wfJ v && wfFields fs') := by simp [wfFields]
          rw [this] at hwf
          exact (Bool.and_eq_true_iff.mp hwf).1
        have hwf2 : wfFields fs' = true := by
          have : wfFields ((k, v) :: fs') = (wfJ v && wfFields fs') := by simp [wfFields]
          rw [this] at hwf
          exact (Bool.and_eq_true_iff.mp hwf).2
        have hneedv : needV v ≤ fuel := by
          have : needO ((k, v) :: fs') = 1 + max (needV v) (needO fs') := by simp [needO]
          omega
        have hneedfs : needO fs' ≤ fuel := by
          have : needO ((k, v) :: fs') = 1 + max (needV v) (needO fs') := by simp [needO]
          omega
        have hval := memberVal v (dumpsObjSep fs' ++ '}' :: rest) hwf1
          (headNotDigit_objSep fs' rest) hneedv
        have hm := objMemberCont_dumps (parsers fuel) k v
          (dumpsObjSep fs' ++ '}' :: rest) hval
        rw [parsers_objRest_succ, hd]
        simp only [List.cons_append, List.append_assoc]
        rw [pobjRestStep_comma_quote (parsers fuel)
          (' ' :: '"' :: (escChars k.data ++ '"' :: ':' :: ' ' ::
            (dumpsL v ++ (dumpsObjSep fs' ++ '}' :: rest))))
          (escChars k.data ++ '"' :: ':' :: ' ' ::
            (dumpsL v ++ (dumpsObjSep fs' ++ '}' :: rest))) rfl]
        simp only [hm, ihOR fs' rest hwf2 hneedfs, Option.map_some']

/-- `json.loads(json.dumps(O))` recovers any well-formed value. -/
theorem loadsL_dumpsL {O : Jv} (h : wfJ O = true) : loadsL (dumpsL O) = some O := by
  unfold loadsL
  have hb : needV O ≤ (dumpsL O).length + 1 := le_trans (needV_le O) (by omega)
  have hm := (parse_dumps_master ((dumpsL O).length + 1)).1 O [] h rfl hb
  rw [List.append_nil] at hm
  have hm' : parseVal ((dumpsL O).length + 1) (dumpsL O) = some (O, []) := hm
  rw [hm']
  rfl

/-- The string form of the round trip. -/
theorem loads_dumpsStr {O : Jv} (h : wfJ O = true) : loads (dumpsStr O) = some O :=
  loadsL_dumpsL h

/-! ### The regex fallback of `_parse_json_response`

`re.search(r'\x7b[^\x7d]+\x7d', text)` scans for the leftmost position
holding `\x7b`, takes the run of non-`\x7d` characters after it (at least one),
and requires the closing `\x7d` right after the run; a position that fails is
abandoned and the scan resumes at the next position. -/

/-- Split at the first closing brace: the characters before it and the rest
after it.  `none` when there is no closing brace at all. -/
def takeClose : List Char → Option (List Char × List Char)
  | [] => none
  | c :: rest =>
    if c = '}' then some ([], rest)
    else (takeClose rest).map fun (i, a) => (c :: i, a)

/-- The first (leftmost) match of `\x7b[^\x7d]+\x7d` in the text, if any. -/
def braceSearch : List Char → Option (List Char)
  | [] => none
  | c :: rest =>
    if c = '{' then
      match takeClose rest with
      | some (interior, _) =>
        if interior.isEmpty then braceSearch rest
        else some ('{' :: (interior ++ ['}']))
      | none => none
    else braceSearch rest

/-- Characters that are not braces. -/
def braceFree (cs : List Char) : Bool := cs.all fun c => c ≠ '{' && c ≠ '}'

theorem takeClose_braceFree (mid suf : List Char) (h : braceFree mid = true) :
    takeClose (mid ++ '}' :: suf) = some (mid, suf) := by
  induction mid with
  | nil => simp [takeClose]
  | cons c mid ih =>
    simp [braceFree] at h
    rw [List.cons_append]
    unfold takeClose
    rw [if_neg h.1.2, ih (by simp [braceFree]; exact fun x hx => h.2 x hx)]
    rfl

theorem braceSearch_concat (pre mid suf : List Char) (hpre : braceFree pre = true)
    (hmid : braceFree mid = true) (hne : mid ≠ []) :
    braceSearch (pre ++ '{' :: (mid ++ '}' :: suf)) = some ('{' :: (mid ++ ['}'])) := by
  induction pre with
  | nil =>
    rw [List.nil_append]
    unfold braceSearch
    rw [if_pos rfl, takeClose_braceFree mid suf hmid]
    simp [hne]
  | cons c pre ih =>
    simp [braceFree] at hpre
    rw [List.cons_append]
    unfold braceSearch
    rw [if_neg hpre.1.1]
    exact ih (by simp [braceFree]; exact fun x hx => hpre.2 x hx)

/-- `json.loads` fails outright when the first non-whitespace character can
start no JSON document (in the embedded fragment). -/
theorem loadsL_bad_start {c : Char} (hw : isJWs c = false) (h1 : c ≠ '"')
    (h2 : c ≠ '{') (h3 : c ≠ '[') (h4 : (c = '-' || c.isDigit) = false)
    (t : List Char) : loadsL (c :: t) = none := by
  unfold loadsL
  have hv : parseVal ((c :: t).length + 1) (c :: t) = none := by
    have he : parseVal ((c :: t).length + 1) (c :: t) =
        pvalStep (parsers ((c :: t).length)) (c :: t) := rfl
    rw [he, pvalStep_other _ hw h1 h2 h3, if_neg (by simp_all)]
  rw [hv]

/-! ### `_parse_json_response` (`ClaudeProvider` / `OpenAICompatibleProvider`)

Both classes carry a textually identical copy of this method: try
`json.loads` on the whole text; on failure search for the regex
`\x7b[^\x7d]+\x7d` and parse the match (a failure of this second
`json.loads` raises `json.decoder.JSONDecodeError`, uncaught); with no
match raise `ValueError("Failed to parse AI response")`. -/

/-- `ClaudeProvider._parse_json_response`. -/
def claude_parse_json_response (response_text : String) : Except String Jv :=
  match loads response_text with
  | some v => .ok v
  | none =>
    match braceSearch response_text.data with
    | some m =>
      match loadsL m with
      | some v => .ok v
      | none => .error "json.decoder.JSONDecodeError"
    | none => .error "Failed to parse AI response"

/-- `OpenAICompatibleProvider._parse_json_response`. -/
def openai_parse_json_response (response_text : String) : Except String Jv :=
  match loads response_text with
  | some v => .ok v
  | none =>
    match braceSearch response_text.data with
    | some m =>
      match loadsL m with
      | some v => .ok v
      | none => .error "json.decoder.JSONDecodeError"
    | none => .error "Failed to parse AI response"

/-- The serialization of the value is one single-level brace group with a
non-empty interior: it opens with a brace, closes with a brace, and has no
brace in between.  This is the class of serializations the regex fallback of
`_parse_json_response` can recover in full. -/
def singleLevelDump (d : List Char) : Bool :=
  match d with
  | c :: rest =>
    (c == '{') && (rest.getLast? == some '}') && !rest.dropLast.isEmpty &&
      braceFree rest.dropLast
  | [] => false

theorem singleLevelDump_decomp {d : List Char} (h : singleLevelDump d = true) :
    ∃ mid, d = '{' :: (mid ++ ['}']) ∧ mid ≠ [] ∧ braceFree mid = true := by
  cases d with
  | nil => simp [singleLevelDump] at h
  | cons c rest =>
    simp only [singleLevelDump, Bool.and_eq_true, beq_iff_eq,
      Bool.not_eq_true', List.isEmpty_eq_false] at h
    obtain ⟨⟨⟨hc, hlast⟩, hne⟩, hfree⟩ := h
    subst hc
    have hrne : rest ≠ [] := by
      intro he
      rw [he] at hlast
      simp at hlast
    refine ⟨rest.dropLast, ?_, hne, hfree⟩
    have hgl : rest.getLast hrne = '}' := by
      have := List.getLast?_eq_getLast rest hrne
      rw [this] at hlast
      exact Option.some_injective _ hlast
    have := List.dropLast_append_getLast hrne
    rw [hgl] at this
    rw [this]

/-- Wrapped extraction: when the direct parse of the whole text fails, the
text surrounds the serialization of a single-level object `O` with a
brace-free prefix and an arbitrary suffix, the fallback regex recovers
exactly that serialization and parsing it returns `O`. -/
theorem claude_extract_embedded (pre suf : List Char) (O : Jv)
    (hpre : braceFree pre = true) (hwf : wfJ O = true)
    (hsl : singleLevelDump (dumpsL O) = true)
    (hfail : loadsL (pre ++ (dumpsL O ++ suf)) = none) :
    claude_parse_json_response (String.mk (pre ++ (dumpsL O ++ suf))) = .ok O := by
  obtain ⟨mid, hd, hne, hmid⟩ := singleLevelDump_decomp hsl
  have h2 : braceSearch (pre ++ (dumpsL O ++ suf)) = some (dumpsL O) := by
    rw [hd]
    have hshape : ('{' :: (mid ++ ['}'])) ++ suf = '{' :: (mid ++ '}' :: suf) := by
      simp
    rw [hshape]
    exact braceSearch_concat pre mid suf hpre hmid hne
  have h1 : loads (String.mk (pre ++ (dumpsL O ++ suf))) = none := hfail
  unfold claude_parse_json_response
  have hdata : (String.mk (pre ++ (dumpsL O ++ suf))).data = pre ++ (dumpsL O ++ suf) := rfl
  rw [h1, hdata, h2]
  simp [loadsL_dumpsL hwf]

/-- Strings with the same character data are equal. -/
theorem stringExt {a b : String} (h : a.data = b.data) : a = b := by
  cases a
  cases b
  simp_all

/-! ### Claim C3 — the fenced-code path of the JSON extractor -/

/-- C3 counterexample.  The claim says the extractor strips a fenced-code
marker and retries, so that for every valid JSON object `O` the extraction of
a fenced rendering of `O` returns `O`.  For the nested (and well-formed)
object written `\x7b"a": \x7b"b": 1\x7d\x7d`, extracting its fenced rendering
raises instead: there is no fence-stripping stage, and the fallback regex
`\x7b[^\x7d]+\x7d` cuts the text at the first closing brace, producing an
unparsable fragment. -/
theorem C3_counterexample :
    wfJ (Jv.obj [("a", Jv.obj [("b", Jv.num 1)])]) = true ∧
    dumpsStr (Jv.obj [("a", Jv.obj [("b", Jv.num 1)])]) =
      "\x7b\x22a\x22: \x7b\x22b\x22: 1\x7d\x7d" ∧
    claude_parse_json_response "```json\n\x7b\x22a\x22: \x7b\x22b\x22: 1\x7d\x7d\n```" =
      .error "json.decoder.JSONDecodeError" := by
  refine ⟨rfl, ?_, rfl⟩
  simp [dumpsStr, dumpsL, dumpsObj, dumpsObjSep, escChars, escChar, intChars,
    natDigits, digitChar]

/-- C3 (amended).  The extractor has no fence-stripping stage: it attempts a
direct parse of the text and otherwise parses the first match of
`\x7b[^\x7d]+\x7d`.  Consequently a fenced-code-wrapped rendering of an
object `O` is recovered exactly when the serialization of `O` is a single
brace group with non-empty brace-free interior; nested objects and the empty
object fail. -/
theorem C3_amended_fenced_extraction (O : Jv) (hwf : wfJ O = true)
    (hsl : singleLevelDump (dumpsL O) = true) :
    claude_parse_json_response ("```json\n" ++ dumpsStr O ++ "\n```") = .ok O := by
  have hstr : ("```json\n" ++ dumpsStr O ++ "\n```") =
      String.mk ("```json\n".data ++ (dumpsL O ++ "\n```".data)) := by
    apply stringExt
    simp [dumpsStr]
  rw [hstr]
  apply claude_extract_embedded _ _ O (by decide) hwf hsl
  have hcons : "```json\n".data ++ (dumpsL O ++ "\n```".data) =
      '`' :: ("``json\n".data ++ (dumpsL O ++ "\n```".data)) := rfl
  rw [hcons]
  exact loadsL_bad_start (by decide) (by decide) (by decide) (by decide) (by decide) _

/-- C3 witness: a concrete flat object round-trips through the fenced form. -/
theorem C3_witness :
    wfJ (Jv.obj [("start", Jv.str "A"), ("end", Jv.str "B")]) = true ∧
    singleLevelDump (dumpsL (Jv.obj [("start", Jv.str "A"), ("end", Jv.str "B")])) = true ∧
    claude_parse_json_response
        ("```json\n" ++ dumpsStr (Jv.obj [("start", Jv.str "A"), ("end", Jv.str "B")]) ++ "\n```") =
      .ok (Jv.obj [("start", Jv.str "A"), ("end", Jv.str "B")]) := by
  have hsl : singleLevelDump (dumpsL (Jv.obj [("start", Jv.str "A"), ("end", Jv.str "B")])) = true := by
    have hd : dumpsL (Jv.obj [("start", Jv.str "A"), ("end", Jv.str "B")]) =
        "\x7b\x22start\x22: \x22A\x22, \x22end\x22: \x22B\x22\x7d".data := by
      simp [dumpsL, dumpsObj, dumpsObjSep, escChars, escChar]
    rw [hd]
    rfl
  exact ⟨rfl, hsl, C3_amended_fenced_extraction _ rfl hsl⟩

/-! ### Claim C4 — the JSON extractor round trip -/

/-- C4 counterexample.  The claim says that for every single flat object `O`
(no nested braces), extracting `"noise " + dump(O) + " noise"` returns `O`.
The empty object is flat and valid, and `dump(\x7b\x7d)` has no nested
braces, yet the extraction fails: the direct parse fails on the noise, and
the fallback regex `\x7b[^\x7d]+\x7d` requires at least one character between
the braces, so it never matches `\x7b\x7d`. -/
theorem C4_counterexample :
    wfJ (Jv.obj []) = true ∧
    dumpsStr (Jv.obj []) = "\x7b\x7d" ∧
    claude_parse_json_response ("noise " ++ dumpsStr (Jv.obj []) ++ " noise") =
      .error "Failed to parse AI response" := by
  have hd : dumpsStr (Jv.obj []) = "\x7b\x7d" := by
    simp [dumpsStr, dumpsL, dumpsObj]
  refine ⟨rfl, hd, ?_⟩
  rw [hd]
  rfl

/-- C4 (amended).  `extract(dump(O))` returns `O` unchanged for every valid
structured object `O`; and `extract("noise " + dump(O) + " noise")` returns
`O` unchanged for every object whose serialization is a single brace group
with a non-empty brace-free interior — flat objects with at least one member,
which excludes the empty object. -/
theorem C4_amended_round_trip :
    (∀ O : Jv, wfJ O = true → claude_parse_json_response (dumpsStr O) = .ok O) ∧
    (∀ O : Jv, wfJ O = true → singleLevelDump (dumpsL O) = true →
      claude_parse_json_response ("noise " ++ dumpsStr O ++ " noise") = .ok O) := by
  constructor
  · intro O hwf
    unfold claude_parse_json_response
    rw [loads_dumpsStr hwf]
  · intro O hwf hsl
    have hstr : ("noise " ++ dumpsStr O ++ " noise") =
        String.mk ("noise ".data ++ (dumpsL O ++ " noise".data)) := by
      apply stringExt
      simp [dumpsStr]
    rw [hstr]
    apply claude_extract_embedded _ _ O (by decide) hwf hsl
    have hcons : "noise ".data ++ (dumpsL O ++ " noise".data) =
        'n' :: ("oise ".data ++ (dumpsL O ++ " noise".data)) := rfl
    rw [hcons]
    exact loadsL_bad_start (by decide) (by decide) (by decide) (by decide) (by decide) _

/-- C4 witness: both round trips at a concrete flat object. -/
theorem C4_witness :
    wfJ (Jv.obj [("tool_name", Jv.str "geocode"), ("policy", Jv.num 4)]) = true ∧
    singleLevelDump (dumpsL (Jv.obj [("tool_name", Jv.str "geocode"), ("policy", Jv.num 4)])) = true ∧
    claude_parse_json_response
        (dumpsStr (Jv.obj [("tool_name", Jv.str "geocode"), ("policy", Jv.num 4)])) =
      .ok (Jv.obj [("tool_name", Jv.str "geocode"), ("policy", Jv.num 4)]) ∧
    claude_parse_json_response
        ("noise " ++ dumpsStr (Jv.obj [("tool_name", Jv.str "geocode"), ("policy", Jv.num 4)]) ++ " noise") =
      .ok (Jv.obj [("tool_name", Jv.str "geocode"), ("policy", Jv.num 4)]) := by
  have hsl : singleLevelDump
      (dumpsL (Jv.obj [("tool_name", Jv.str "geocode"), ("policy", Jv.num 4)])) = true := by
    have hd : dumpsL (Jv.obj [("tool_name", Jv.str "geocode"), ("policy", Jv.num 4)]) =
        "\x7b\x22tool_name\x22: \x22geocode\x22, \x22policy\x22: 4\x7d".data := by
      simp [dumpsL, dumpsObj, dumpsObjSep, escChars, escChar, intChars, natDigits, digitChar]
    rw [hd]
    rfl
  exact ⟨rfl, hsl, C4_amended_round_trip.1 _ rfl, C4_amended_round_trip.2 _ rfl hsl⟩

/-! ### Claim C10 — the non-nested fallback match -/

/-- The extractor the claim describes, written from the claim's words: the
substring from the first `\x7b` to the next following `\x7d`, with no
lower bound on the interior.  Only for comparison against `braceSearch`,
the extractor the code implements. -/
def specFirstBraceSlice : List Char → Option (List Char)
  | [] => none
  | c :: rest =>
    if c = '{' then (takeClose rest).map fun (i, _) => '{' :: (i ++ ['}'])
    else specFirstBraceSlice rest

/-- C10 counterexample.  On `x\x7b\x7dy\x7b"a": 1\x7d` the claim's extractor
takes the substring from the first `\x7b` to the next `\x7d` — the empty
object — and, it being valid JSON, returns `\x7b\x7d`.  The code's regex
`\x7b[^\x7d]+\x7d` needs a non-empty interior, skips the empty pair, and
returns the later object instead. -/
theorem C10_counterexample :
    loads "x\x7b\x7dy\x7b\x22a\x22: 1\x7d" = none ∧
    specFirstBraceSlice "x\x7b\x7dy\x7b\x22a\x22: 1\x7d".data = some "\x7b\x7d".data ∧
    loadsL "\x7b\x7d".data = some (Jv.obj []) ∧
    claude_parse_json_response "x\x7b\x7dy\x7b\x22a\x22: 1\x7d" =
      .ok (Jv.obj [("a", Jv.num 1)]) ∧
    Jv.obj [("a", Jv.num 1)] ≠ Jv.obj [] := by
  refine ⟨rfl, rfl, rfl, rfl, ?_⟩
  intro h
  injection h with h'
  exact absurd h' (by simp)

/-- C10 (amended).  When the direct parse fails, the extractor parses only
the first match of `\x7b[^\x7d]+\x7d` — the first opening brace with at
least one character before the next closing brace: if that substring is
valid JSON its object is returned and everything after it is ignored; if it
is not valid JSON the extraction fails even when a complete valid object
appears later in the text.  An empty `\x7b\x7d` pair is skipped by the
scan. -/
theorem C10_amended_first_match (pre mid suf : List Char)
    (hpre : braceFree pre = true) (hmid : braceFree mid = true) (hne : mid ≠ [])
    (hfail : loadsL (pre ++ '{' :: (mid ++ '}' :: suf)) = none) :
    (∀ v : Jv, loadsL ('{' :: (mid ++ ['}'])) = some v →
      claude_parse_json_response (String.mk (pre ++ '{' :: (mid ++ '}' :: suf))) = .ok v) ∧
    (loadsL ('{' :: (mid ++ ['}'])) = none →
      claude_parse_json_response (String.mk (pre ++ '{' :: (mid ++ '}' :: suf))) =
        .error "json.decoder.JSONDecodeError") := by
  have hb := braceSearch_concat pre mid suf hpre hmid hne
  have h1 : loads (String.mk (pre ++ '{' :: (mid ++ '}' :: suf))) = none := hfail
  have hdata : (String.mk (pre ++ '{' :: (mid ++ '}' :: suf))).data =
      pre ++ '{' :: (mid ++ '}' :: suf) := rfl
  constructor
  · intro v hv
    unfold claude_parse_json_response
    rw [h1, hdata, hb]
    simp [hv]
  · intro hv
    unfold claude_parse_json_response
    rw [h1, hdata, hb]
    simp [hv]

/-- C10 witness: the first single-level group parses, and the valid object in
the suffix is ignored. -/
theorem C10_witness :
    loadsL ("Some text ".data ++ '{' ::
        ("\x22key\x22: \x22value\x22".data ++ '}' :: " and \x7b\x22z\x22: 2\x7d".data)) = none ∧
    claude_parse_json_response (String.mk ("Some text ".data ++ '{' ::
        ("\x22key\x22: \x22value\x22".data ++ '}' :: " and \x7b\x22z\x22: 2\x7d".data))) =
      .ok (Jv.obj [("key", Jv.str "value")]) := by
  refine ⟨rfl, ?_⟩
  exact (C10_amended_first_match "Some text ".data "\x22key\x22: \x22value\x22".data
    " and \x7b\x22z\x22: 2\x7d".data (by decide) (by decide) (by decide) rfl).1
    (Jv.obj [("key", Jv.str "value")]) rfl

/-! ### Claim C2 — `NavigationIntent` (`src/ai_parser.py`)

The pydantic model:

    origin: str = "我的位置"
    destination: str
    mode: str = "driving"
    policy: int = 0
    preferences: list[str] = []

Validation on construction from a parsed JSON object checks only that the
required field is present and that present fields have the declared types
(extra fields are ignored, pydantic's default).  No validator restricts
`mode` or `policy` to the enumerations named in the prompt, and no check
rejects an empty destination.  The embedding uses strict type matching;
pydantic's lax coercions are not needed by any statement below. -/

/-- The parsed navigation intent of `src/ai_parser.py`. -/
structure NavigationIntent where
  origin : String
  destination : String
  mode : String
  policy : Int
  preferences : List String
deriving Repr, DecidableEq

/-- A JSON array whose elements are all strings, as a string list. -/
def strsOf : List Jv → Option (List String)
  | [] => some []
  | Jv.str s :: rest => (strsOf rest).map (s :: ·)
  | _ => none

/-- `NavigationIntent(**result)`: construct the model from the fields of a
parsed JSON object, pydantic style. -/
def NavigationIntent.ofFields (fields : List (String × Jv)) :
    Except String NavigationIntent := do
  let origin ← match jlookup fields "origin" with
    | some (Jv.str s) => Except.ok s
    | some _ => Except.error "origin: Input should be a valid string"
    | none => Except.ok "我的位置"
  let destination ← match jlookup fields "destination" with
    | some (Jv.str s) => Except.ok s
    | some _ => Except.error "destination: Input should be a valid string"
    | none => Except.error "destination: Field required"
  let mode ← match jlookup fields "mode" with
    | some (Jv.str s) => Except.ok s
    | some _ => Except.error "mode: Input should be a valid string"
    | none => Except.ok "driving"
  let policy ← match jlookup fields "policy" with
    | some (Jv.num n) => Except.ok n
    | some _ => Except.error "policy: Input should be a valid integer"
    | none => Except.ok 0
  let preferences ← match jlookup fields "preferences" with
    | some (Jv.arr vs) =>
      match strsOf vs with
      | some ss => Except.ok ss
      | none => Except.error "preferences: Input should be a valid list of strings"
    | some _ => Except.error "preferences: Input should be a valid list"
    | none => Except.ok []
  Except.ok ⟨origin, destination, mode, policy, preferences⟩

/-- `AIIntentParser.parse`, from the backend's response content onward:
`json.loads` the content, construct the model, wrap any failure in the
`AI解析失败` message. -/
def aiParse (content : String) : Except String NavigationIntent :=
  match loads content with
  | some (Jv.obj fs) =>
    match NavigationIntent.ofFields fs with
    | .ok i => .ok i
    | .error e => .error ("AI解析失败: " ++ e)
  | some _ => .error "AI解析失败: argument of type is not a mapping"
  | none => .error "AI解析失败: JSONDecodeError"

/-- C2 counterexample.  The claim says a mode outside the closed enumeration,
a policy outside it, or an empty destination is a validation error.  A
candidate with all three defects is accepted: construction succeeds and
returns the out-of-enumeration values unchanged. -/
theorem C2_counterexample :
    ("flying" ∉ ["driving", "walking", "bicycling"]) ∧
    ((3 : Int) ∉ ([0, 1, 2, 4] : List Int)) ∧
    NavigationIntent.ofFields
        [("destination", Jv.str ""), ("mode", Jv.str "flying"), ("policy", Jv.num 3)] =
      .ok ⟨"我的位置", "", "flying", 3, []⟩ := by
  refine ⟨by decide, by decide, rfl⟩

/-- C2 (amended).  Construction of a `NavigationIntent` from a parsed object
validates only presence of `destination` and the declared field types.  Any
string is accepted as `mode`, any integer as `policy`, and the empty string
as `destination`; nothing is coerced, the values are stored unchanged. -/
theorem C2_amended_no_enum_validation (d m : String) (p : Int) :
    NavigationIntent.ofFields
        [("destination", Jv.str d), ("mode", Jv.str m), ("policy", Jv.num p)] =
      .ok ⟨"我的位置", d, m, p, []⟩ := rfl

/-! ### Python value rendering (f-string interpolation of parsed JSON)

`str(x)` for values coming out of `json.loads`: strings render bare, numbers
in decimal, containers through `repr` (string quoting inside `repr` is
embedded without escape handling, which no statement below exercises). -/

mutual

/-- `repr(x)` for a parsed JSON value. -/
def pyRepr : Jv → String
  | .str s => "'" ++ s ++ "'"
  | .num n => intToString n
  | .arr vs => "[" ++ pyReprList vs ++ "]"
  | .obj fs => "\x7b" ++ pyReprFields fs ++ "\x7d"

/-- Comma-joined `repr`s of list elements. -/
def pyReprList : List Jv → String
  | [] => ""
  | [v] => pyRepr v
  | v :: vs => pyRepr v ++ ", " ++ pyReprList vs

/-- Comma-joined `repr`s of dict items. -/
def pyReprFields : List (String × Jv) → String
  | [] => ""
  | [(k, v)] => "'" ++ k ++ "': " ++ pyRepr v
  | (k, v) :: fs => "'" ++ k ++ "': " ++ pyRepr v ++ ", " ++ pyReprFields fs

end

/-- `str(x)` for a parsed JSON value. -/
def pyStr : Jv → String
  | .str s => s
  | .num n => intToString n
  | .arr vs => pyRepr (.arr vs)
  | .obj fs => pyRepr (.obj fs)

/-! ### `urllib.parse.quote` -/

/-- Bytes `urllib.parse.quote` leaves unescaped with the default
`safe='/'`: ASCII letters, digits, `_ . - ~` and `/`. -/
def isUrlSafe (b : Nat) : Bool :=
  decide ((65 ≤ b ∧ b ≤ 90) ∨ (97 ≤ b ∧ b ≤ 122) ∨ (48 ≤ b ∧ b ≤ 57) ∨
    b = 95 ∨ b = 46 ∨ b = 45 ∨ b = 126 ∨ b = 47)

/-- Uppercase hexadecimal digit for `d < 16` (Python `'%X'` in `quote`). -/
def hexDigitUpper (d : Nat) : Char :=
  if d < 10 then Char.ofNat (48 + d) else Char.ofNat (55 + d)

/-- UTF-8 encoding of one character, as byte values. -/
def utf8Bytes (c : Char) : List Nat :=
  if c.toNat < 128 then [c.toNat]
  else if c.toNat < 2048 then [192 + c.toNat / 64, 128 + c.toNat % 64]
  else if c.toNat < 65536 then
    [224 + c.toNat / 4096, 128 + (c.toNat / 64) % 64, 128 + c.toNat % 64]
  else
    [240 + c.toNat / 262144, 128 + (c.toNat / 4096) % 64, 128 + (c.toNat / 64) % 64,
      128 + c.toNat % 64]

/-- Percent-encode one byte unless it is safe. -/
def quoteByte (b : Nat) : List Char :=
  if isUrlSafe b then [Char.ofNat b]
  else ['%', hexDigitUpper (b / 16), hexDigitUpper (b % 16)]

/-- `urllib.parse.quote(s)` with the default `safe='/'`. -/
def urlQuote (s : String) : String :=
  String.mk ((s.data.flatMap utf8Bytes).flatMap quoteByte)

/-- Code of a character made from a small byte. -/
theorem toNat_ofNat_small {b : Nat} (h : b < 128) : (Char.ofNat b).toNat = b := by
  have hv : b.isValidChar := Or.inl (by omega)
  rw [Char.ofNat, dif_pos hv]
  rfl

/-- Every character `quoteByte` can emit for a byte differs from `&`, `=`
and `?`. -/
theorem quoteByte_clean {b : Nat} (hb : b < 256) :
    ∀ c ∈ quoteByte b, c ≠ '&' ∧ c ≠ '=' ∧ c ≠ '?' := by
  intro c hc
  unfold quoteByte at hc
  split at hc
  · rename_i hsafe
    simp at hc
    subst hc
    simp [isUrlSafe] at hsafe
    refine ⟨?_, ?_, ?_⟩
    · intro he
      have h2 := congrArg Char.toNat he
      rw [toNat_ofNat_small (by omega), show ('&').toNat = 38 from rfl] at h2
      omega
    · intro he
      have h2 := congrArg Char.toNat he
      rw [toNat_ofNat_small (by omega), show ('=').toNat = 61 from rfl] at h2
      omega
    · intro he
      have h2 := congrArg Char.toNat he
      rw [toNat_ofNat_small (by omega), show ('?').toNat = 63 from rfl] at h2
      omega
  · have hhex : ∀ d : Nat, d < 16 → hexDigitUpper d ≠ '&' ∧ hexDigitUpper d ≠ '=' ∧
        hexDigitUpper d ≠ '?' := by
      intro d hd
      interval_cases d <;> refine ⟨by decide, by decide, by decide⟩
    simp at hc
    rcases hc with hc | hc | hc
    · subst hc
      refine ⟨by decide, by decide, by decide⟩
    · subst hc
      exact hhex _ (by omega)
    · subst hc
      exact hhex _ (Nat.mod_lt _ (by omega))

/-- UTF-8 bytes are bytes. -/
theorem utf8Bytes_lt (c : Char) : ∀ b ∈ utf8Bytes c, b < 256 := by
  intro b hb
  have hcv : c.toNat < 1114112 := by
    have := c.valid
    rcases this with h | h
    · simp [Char.toNat]
      omega
    · simp [Char.toNat]
      omega
  unfold utf8Bytes at hb
  split at hb
  · simp at hb
    omega
  · split at hb
    · simp at hb
      rcases hb with hb | hb <;> omega
    · split at hb
      · simp at hb
        rcases hb with hb | hb | hb <;> omega
      · simp at hb
        rcases hb with hb | hb | hb | hb <;> omega

/-- The output of `urlQuote` never contains `&`, `=` or `?`. -/
theorem urlQuote_clean (s : String) :
    ∀ c ∈ (urlQuote s).data, c ≠ '&' ∧ c ≠ '=' ∧ c ≠ '?' := by
  intro c hc
  have hc' : c ∈ (s.data.flatMap utf8Bytes).flatMap quoteByte := hc
  rw [List.mem_flatMap] at hc'
  obtain ⟨b, hbmem, hcq⟩ := hc'
  rw [List.mem_flatMap] at hbmem
  obtain ⟨ch, _, hbu⟩ := hbmem
  exact quoteByte_clean (utf8Bytes_lt ch b hbu) c hcq

/-! ### `json.dumps(..., indent=2, ensure_ascii=False)` -/

mutual

/-- Indented serialization at nesting level `lvl` (`indent=2`: separators
become `,` newline and `: `). -/
def dumpsInd (lvl : Nat) : Jv → List Char
  | .str s => '"' :: (escChars s.data ++ ['"'])
  | .num n => intChars n
  | .arr [] => ['[', ']']
  | .arr (v :: vs) =>
    '[' :: '\n' :: (List.replicate (2 * (lvl + 1)) ' ' ++ dumpsInd (lvl + 1) v ++
      dumpsIndArrSep (lvl + 1) vs ++ '\n' :: (List.replicate (2 * lvl) ' ' ++ [']']))
  | .obj [] => ['{', '}']
  | .obj ((k, v) :: fs) =>
    '{' :: '\n' :: (List.replicate (2 * (lvl + 1)) ' ' ++
      '"' :: (escChars k.data ++ '"' :: ':' :: ' ' :: dumpsInd (lvl + 1) v) ++
      dumpsIndObjSep (lvl + 1) fs ++ '\n' :: (List.replicate (2 * lvl) ' ' ++ ['}']))

/-- Later array elements, each on its own indented line. -/
def dumpsIndArrSep (lvl : Nat) : List Jv → List Char
  | [] => []
  | v :: vs =>
    ',' :: '\n' :: (List.replicate (2 * lvl) ' ' ++ dumpsInd lvl v ++
      dumpsIndArrSep lvl vs)

/-- Later object members, each on its own indented line. -/
def dumpsIndObjSep (lvl : Nat) : List (String × Jv) → List Char
  | [] => []
  | (k, v) :: fs =>
    ',' :: '\n' :: (List.replicate (2 * lvl) ' ' ++
      '"' :: (escChars k.data ++ '"' :: ':' :: ' ' :: dumpsInd lvl v) ++
      dumpsIndObjSep lvl fs)

end

/-- `json.dumps(v, indent=2, ensure_ascii=False)`. -/
def dumpsIndStr (v : Jv) : String := String.mk (dumpsInd 0 v)

/-! ### The provider layer (`src/src/ai_navigator/ai_provider.py`)

`AIProvider` instance state is the pair `(context_history, context_summary)`.
The transport (the network call to the model backend) is abstracted: each
capability operation is embedded as a function of the instance state, its
Python arguments, and the backend's response text, returning the operation's
result together with the instance state after the call. -/

/-- The conversation context owned by an `AIProvider` instance. -/
structure ConversationContext where
  context_history : List (String × String)
  context_summary : String
deriving Repr, DecidableEq

/-- `AIProvider.set_context`: replaces both fields. -/
def set_context (st : ConversationContext) (context_history : List (String × String))
    (context_summary : String) : ConversationContext :=
  ⟨context_history, context_summary⟩

/-- `AIProvider.clear_context`. -/
def clear_context (st : ConversationContext) : ConversationContext := ⟨[], ""⟩

/-- Python `l[-3:]` for the message history. -/
def lastN (n : Nat) (l : List (String × String)) : List (String × String) :=
  l.drop (l.length - n)

/-- Python truthiness of a parsed JSON value (`if context`). -/
def pyTruthy : Jv → Bool
  | .str s => s ≠ ""
  | .num n => n ≠ 0
  | .arr vs => !vs.isEmpty
  | .obj fs => !fs.isEmpty

/-- `str.strip()`: drop ASCII whitespace from both ends. -/
def isPyWs (c : Char) : Bool :=
  c = ' ' || c = '\t' || c = '\n' || c = '\r' || c = Char.ofNat 11 || c = Char.ofNat 12

/-- `s.strip()` on the backend's response text. -/
def pyStrip (s : String) : String :=
  String.mk (((s.data.dropWhile isPyWs).reverse.dropWhile isPyWs).reverse)

/-- A geocoded coordinate record as `generate_navigation_url` receives it.
The `longitude`/`latitude` fields carry the textual rendering of the numeric
values exactly as Python's f-string interpolates them. -/
structure Coords where
  name : String
  longitude : String
  latitude : String
deriving Repr, DecidableEq

/-! #### `ClaudeProvider` prompts -/

/-- The context block of `ClaudeProvider.parse_navigation_request`. -/
def claude_nav_context_str (context_summary : String) : String :=
  if context_summary ≠ "" then "\n\nContext:\n" ++ context_summary else ""

/-- The prompt of `ClaudeProvider.parse_navigation_request`. -/
def claude_parse_navigation_prompt (user_input : String) (context_summary : String) :
    String :=
  "Parse this navigation request and extract the start location (A) and end location (B).\nReturn a JSON object with 'start' and 'end' keys.\n\nUser request: "
    ++ user_input ++ claude_nav_context_str context_summary
    ++ "\n\nResponse format:\n\x7b\x22start\x22: \x22location A\x22, \x22end\x22: \x22location B\x22\x7d\n\nOnly return the JSON, no other text."

/-- The message list `ClaudeProvider.parse_navigation_request` sends: the
last three history entries (when the history is non-empty) and the prompt. -/
def claude_parse_navigation_messages (st : ConversationContext) (user_input : String) :
    List (String × String) :=
  (if st.context_history ≠ [] then lastN 3 st.context_history else []) ++
    [("user", claude_parse_navigation_prompt user_input st.context_summary)]

/-- The context block of `ClaudeProvider.select_mcp_tool` and
`parse_mcp_response` (`json.dumps(context) if context else "None"`). -/
def claude_context_str (context : Option Jv) : String :=
  match context with
  | some c => if pyTruthy c then String.mk (dumpsL c) else "None"
  | none => "None"

/-- The prompt of `ClaudeProvider.select_mcp_tool`. -/
def claude_select_mcp_tool_prompt (user_intent : String) (available_tools : List Jv)
    (context : Option Jv) : String :=
  "You are an intelligent tool selector. Based on the user's intent and available MCP tools, select the most appropriate tool and generate the correct arguments.\n\nUser Intent: "
    ++ user_intent ++ "\n\nAvailable Tools:\n" ++ dumpsIndStr (Jv.arr available_tools)
    ++ "\n\nContext: " ++ claude_context_str context
    ++ "\n\nAnalyze the intent and select the best tool. Return a JSON object with:\n- tool_name: The name of the selected tool\n- arguments: A dictionary of arguments for the tool\n- reasoning: Brief explanation of why you chose this tool\n\nResponse format:\n\x7b\n  \x22tool_name\x22: \x22selected_tool_name\x22,\n  \x22arguments\x22: \x7b\x22param1\x22: \x22value1\x22\x7d,\n  \x22reasoning\x22: \x22explanation\x22\n\x7d\n\nOnly return the JSON, no other text."

/-- The prompt of `ClaudeProvider.parse_mcp_response`. -/
def claude_parse_mcp_prompt (raw_response : Jv) (expected_info : String)
    (context : Option Jv) : String :=
  "You are an intelligent response parser. Extract the requested information from the MCP tool response.\n\nMCP Tool Response:\n"
    ++ dumpsIndStr raw_response ++ "\n\nExpected Information: " ++ expected_info
    ++ "\n\nContext: " ++ claude_context_str context
    ++ "\n\nAnalyze the response and extract the requested information. Return a JSON object with the extracted data in a clean, structured format.\n\nExample for location coordinates:\n\x7b\n  \x22name\x22: \x22location name\x22,\n  \x22longitude\x22: 116.123,\n  \x22latitude\x22: 39.456,\n  \x22formatted_address\x22: \x22full address\x22\n\x7d\n\nOnly return the JSON, no other text."

/-- The prompt of `ClaudeProvider.generate_navigation_url`. -/
def claude_generate_nav_prompt (start_coords end_coords : Coords)
    (user_preference : Option String) : String :=
  "Generate navigation URL parameters for Amap (高德地图) based on these coordinates:\n\nStart: "
    ++ start_coords.name ++ " (" ++ start_coords.longitude ++ ", " ++ start_coords.latitude
    ++ ")\nEnd: " ++ end_coords.name ++ " (" ++ end_coords.longitude ++ ", "
    ++ end_coords.latitude ++ ")\nUser preference: "
    ++ (match user_preference with
        | some p => if p ≠ "" then p else "default"
        | none => "default")
    ++ "\n\nProvide:\n1. navigation_mode: car/bus/walk/bike (default: car)\n2. route_policy: 0=fastest/1=no_highway/2=avoid_congestion/3=save_money/4=highway_first (default: 1)\n3. use_native_app: true/false (true for better experience, use callnative=1; false for web, use callnative=0)\n\nReturn JSON format:\n\x7b\n  \x22mode\x22: \x22car\x22,\n  \x22policy\x22: 1,\n  \x22callnative\x22: 1,\n  \x22description\x22: \x22Brief explanation of choices\x22\n\x7d\n\nOnly return JSON, no other text."

/-! #### `OpenAICompatibleProvider` prompts (textually duplicated in source) -/

/-- The context block of `OpenAICompatibleProvider.parse_navigation_request`. -/
def openai_nav_context_str (context_summary : String) : String :=
  if context_summary ≠ "" then "\n\nContext:\n" ++ context_summary else ""

/-- The prompt of `OpenAICompatibleProvider.parse_navigation_request`. -/
def openai_parse_navigation_prompt (user_input : String) (context_summary : String) :
    String :=
  "Parse this navigation request and extract the start location (A) and end location (B).\nReturn a JSON object with 'start' and 'end' keys.\n\nUser request: "
    ++ user_input ++ openai_nav_context_str context_summary
    ++ "\n\nResponse format:\n\x7b\x22start\x22: \x22location A\x22, \x22end\x22: \x22location B\x22\x7d\n\nOnly return the JSON, no other text."

/-- The message list `OpenAICompatibleProvider.parse_navigation_request`
sends. -/
def openai_parse_navigation_messages (st : ConversationContext) (user_input : String) :
    List (String × String) :=
  (if st.context_history ≠ [] then lastN 3 st.context_history else []) ++
    [("user", openai_parse_navigation_prompt user_input st.context_summary)]

/-- The context block of `OpenAICompatibleProvider.select_mcp_tool` and
`parse_mcp_response`. -/
def openai_context_str (context : Option Jv) : String :=
  match context with
  | some c => if pyTruthy c then String.mk (dumpsL c) else "None"
  | none => "None"

/-- The prompt of `OpenAICompatibleProvider.select_mcp_tool`. -/
def openai_select_mcp_tool_prompt (user_intent : String) (available_tools : List Jv)
    (context : Option Jv) : String :=
  "You are an intelligent tool selector. Based on the user's intent and available MCP tools, select the most appropriate tool and generate the correct arguments.\n\nUser Intent: "
    ++ user_intent ++ "\n\nAvailable Tools:\n" ++ dumpsIndStr (Jv.arr available_tools)
    ++ "\n\nContext: " ++ openai_context_str context
    ++ "\n\nAnalyze the intent and select the best tool. Return a JSON object with:\n- tool_name: The name of the selected tool\n- arguments: A dictionary of arguments for the tool\n- reasoning: Brief explanation of why you chose this tool\n\nResponse format:\n\x7b\n  \x22tool_name\x22: \x22selected_tool_name\x22,\n  \x22arguments\x22: \x7b\x22param1\x22: \x22value1\x22\x7d,\n  \x22reasoning\x22: \x22explanation\x22\n\x7d\n\nOnly return the JSON, no other text."

/-- The prompt of `OpenAICompatibleProvider.parse_mcp_response`. -/
def openai_parse_mcp_prompt (raw_response : Jv) (expected_info : String)
    (context : Option Jv) : String :=
  "You are an intelligent response parser. Extract the requested information from the MCP tool response.\n\nMCP Tool Response:\n"
    ++ dumpsIndStr raw_response ++ "\n\nExpected Information: " ++ expected_info
    ++ "\n\nContext: " ++ openai_context_str context
    ++ "\n\nAnalyze the response and extract the requested information. Return a JSON object with the extracted data in a clean, structured format.\n\nExample for location coordinates:\n\x7b\n  \x22name\x22: \x22location name\x22,\n  \x22longitude\x22: 116.123,\n  \x22latitude\x22: 39.456,\n  \x22formatted_address\x22: \x22full address\x22\n\x7d\n\nOnly return the JSON, no other text."

/-- The prompt of `OpenAICompatibleProvider.generate_navigation_url`. -/
def openai_generate_nav_prompt (start_coords end_coords : Coords)
    (user_preference : Option String) : String :=
  "Generate navigation URL parameters for Amap (高德地图) based on these coordinates:\n\nStart: "
    ++ start_coords.name ++ " (" ++ start_coords.longitude ++ ", " ++ start_coords.latitude
    ++ ")\nEnd: " ++ end_coords.name ++ " (" ++ end_coords.longitude ++ ", "
    ++ end_coords.latitude ++ ")\nUser preference: "
    ++ (match user_preference with
        | some p => if p ≠ "" then p else "default"
        | none => "default")
    ++ "\n\nProvide:\n1. navigation_mode: car/bus/walk/bike (default: car)\n2. route_policy: 0=fastest/1=no_highway/2=avoid_congestion/3=save_money/4=highway_first (default: 1)\n3. use_native_app: true/false (true for better experience, use callnative=1; false for web, use callnative=0)\n\nReturn JSON format:\n\x7b\n  \x22mode\x22: \x22car\x22,\n  \x22policy\x22: 1,\n  \x22callnative\x22: 1,\n  \x22description\x22: \x22Brief explanation of choices\x22\n\x7d\n\nOnly return JSON, no other text."

/-! #### URL assembly and the capability operations -/

/-- The dict returned by `generate_navigation_url`: the assembled URL and the
backend-chosen (or defaulted) raw values. -/
structure NavUrlResult where
  url : String
  mode : Jv
  policy : Jv
  callnative : Jv
  description : Jv
deriving Repr

/-- The URL string `ClaudeProvider.generate_navigation_url` assembles from
the coordinates and the parameter object extracted from the backend
response. -/
def claude_navigation_url (start_coords end_coords : Coords)
    (params : List (String × Jv)) : String :=
  "https://uri.amap.com/navigation?from=" ++ start_coords.longitude ++ ","
    ++ start_coords.latitude
    ++ "&to=" ++ end_coords.longitude ++ "," ++ end_coords.latitude
    ++ "&sname=" ++ urlQuote start_coords.name
    ++ "&dname=" ++ urlQuote end_coords.name
    ++ "&mode=" ++ pyStr (jget params "mode" (Jv.str "car"))
    ++ "&policy=" ++ pyStr (jget params "policy" (Jv.num 1))
    ++ "&src=ai-navigator&coordinate=gaode&callnative="
    ++ pyStr (jget params "callnative" (Jv.num 1))

/-- The dict `ClaudeProvider.generate_navigation_url` returns. -/
def claude_generate_navigation_result (start_coords end_coords : Coords)
    (params : List (String × Jv)) : NavUrlResult :=
  ⟨claude_navigation_url start_coords end_coords params,
   jget params "mode" (Jv.str "car"),
   jget params "policy" (Jv.num 1),
   jget params "callnative" (Jv.num 1),
   jget params "description" (Jv.str "AI-generated navigation parameters")⟩

/-- The URL string `OpenAICompatibleProvider.generate_navigation_url`
assembles (textually duplicated in source). -/
def openai_navigation_url (start_coords end_coords : Coords)
    (params : List (String × Jv)) : String :=
  "https://uri.amap.com/navigation?from=" ++ start_coords.longitude ++ ","
    ++ start_coords.latitude
    ++ "&to=" ++ end_coords.longitude ++ "," ++ end_coords.latitude
    ++ "&sname=" ++ urlQuote start_coords.name
    ++ "&dname=" ++ urlQuote end_coords.name
    ++ "&mode=" ++ pyStr (jget params "mode" (Jv.str "car"))
    ++ "&policy=" ++ pyStr (jget params "policy" (Jv.num 1))
    ++ "&src=ai-navigator&coordinate=gaode&callnative="
    ++ pyStr (jget params "callnative" (Jv.num 1))

/-- The dict `OpenAICompatibleProvider.generate_navigation_url` returns. -/
def openai_generate_navigation_result (start_coords end_coords : Coords)
    (params : List (String × Jv)) : NavUrlResult :=
  ⟨openai_navigation_url start_coords end_coords params,
   jget params "mode" (Jv.str "car"),
   jget params "policy" (Jv.num 1),
   jget params "callnative" (Jv.num 1),
   jget params "description" (Jv.str "AI-generated navigation parameters")⟩

/-- `ClaudeProvider.parse_navigation_request`: strip the backend response
and run it through `_parse_json_response`.  No field of the result is
inspected; the instance state is untouched. -/
def claude_parse_navigation_request (st : ConversationContext)
    (user_input : String) (response_text : String) :
    Except String Jv × ConversationContext :=
  (claude_parse_json_response (pyStrip response_text), st)

/-- `ClaudeProvider.select_mcp_tool`, from the backend response onward. -/
def claude_select_mcp_tool (st : ConversationContext) (user_intent : String)
    (available_tools : List Jv) (context : Option Jv) (response_text : String) :
    Except String Jv × ConversationContext :=
  (claude_parse_json_response (pyStrip response_text), st)

/-- `ClaudeProvider.parse_mcp_response`, from the backend response onward. -/
def claude_parse_mcp_response (st : ConversationContext) (raw_response : Jv)
    (expected_info : String) (context : Option Jv) (response_text : String) :
    Except String Jv × ConversationContext :=
  (claude_parse_json_response (pyStrip response_text), st)

/-- `ClaudeProvider.generate_navigation_url`: extract the parameter object
from the backend response and assemble URL and result dict.  A non-dict
extraction makes `params.get` raise (`AttributeError`). -/
def claude_generate_navigation_url (st : ConversationContext)
    (start_coords end_coords : Coords) (user_preference : Option String)
    (response_text : String) : Except String NavUrlResult × ConversationContext :=
  ((match claude_parse_json_response (pyStrip response_text) with
    | .ok (Jv.obj fs) => .ok (claude_generate_navigation_result start_coords end_coords fs)
    | .ok _ => .error "AttributeError"
    | .error e => .error e), st)

/-- `OpenAICompatibleProvider.parse_navigation_request`, from the backend
response onward. -/
def openai_parse_navigation_request (st : ConversationContext)
    (user_input : String) (response_text : String) :
    Except String Jv × ConversationContext :=
  (openai_parse_json_response (pyStrip response_text), st)

/-- `OpenAICompatibleProvider.select_mcp_tool`, from the backend response
onward. -/
def openai_select_mcp_tool (st : ConversationContext) (user_intent : String)
    (available_tools : List Jv) (context : Option Jv) (response_text : String) :
    Except String Jv × ConversationContext :=
  (openai_parse_json_response (pyStrip response_text), st)

/-- `OpenAICompatibleProvider.parse_mcp_response`, from the backend response
onward. -/
def openai_parse_mcp_response (st : ConversationContext) (raw_response : Jv)
    (expected_info : String) (context : Option Jv) (response_text : String) :
    Except String Jv × ConversationContext :=
  (openai_parse_json_response (pyStrip response_text), st)

/-- `OpenAICompatibleProvider.generate_navigation_url`, from the backend
response onward. -/
def openai_generate_navigation_url (st : ConversationContext)
    (start_coords end_coords : Coords) (user_preference : Option String)
    (response_text : String) : Except String NavUrlResult × ConversationContext :=
  ((match openai_parse_json_response (pyStrip response_text) with
    | .ok (Jv.obj fs) => .ok (openai_generate_navigation_result start_coords end_coords fs)
    | .ok _ => .error "AttributeError"
    | .error e => .error e), st)

/-! ### Claim C1 — missing `end` key in `parse_navigation_request` -/

/-- C1 counterexample.  The claim says a backend response whose extracted
object lacks the `end` key makes `parse_navigation_request` raise an
`IntentParseError`.  The method performs no key check at all: for the
response `\x7b"start": "当前位置"\x7d` it returns the partial object as a
successful result. -/
theorem C1_counterexample :
    (claude_parse_navigation_request ⟨[], ""⟩ "导航到北京"
        "\x7b\x22start\x22: \x22当前位置\x22\x7d").1 =
      .ok (Jv.obj [("start", Jv.str "当前位置")]) ∧
    jlookup [("start", Jv.str "当前位置")] "end" = none :=
  ⟨rfl, rfl⟩

/-- C1 (amended).  `parse_navigation_request` fails exactly when JSON
extraction fails (`ValueError` from `_parse_json_response`); it never
validates the extracted keys.  Whenever extraction succeeds — also on an
object with no `end` key — the object is returned unchanged as a successful
result, so the caller receives a partially-filled intent. -/
theorem C1_amended_no_key_check (st : ConversationContext)
    (user_input response_text : String) (fs : List (String × Jv))
    (hok : claude_parse_json_response (pyStrip response_text) = .ok (Jv.obj fs))
    (hmiss : jlookup fs "end" = none) :
    (claude_parse_navigation_request st user_input response_text).1 =
      .ok (Jv.obj fs) := by
  simp [claude_parse_navigation_request, hok]

/-- C1 witness: the amended theorem at the counterexample input. -/
theorem C1_witness :
    jlookup [("start", Jv.str "当前位置")] "end" = none ∧
    (claude_parse_navigation_request ⟨[], ""⟩ "导航到北京"
        "\x7b\x22start\x22: \x22当前位置\x22\x7d").1 =
      .ok (Jv.obj [("start", Jv.str "当前位置")]) :=
  ⟨rfl, C1_amended_no_key_check ⟨[], ""⟩ "导航到北京"
    "\x7b\x22start\x22: \x22当前位置\x22\x7d" [("start", Jv.str "当前位置")] rfl rfl⟩

/-! ### Claim C8 — the capability operations never touch the context -/

/-- C8.  For every provider instance state and every invocation of the four
capability operations — succeeding or failing — the `context_history` and
`context_summary` after the call equal their values before the call, in both
provider implementations; `set_context` and `clear_context` are the
operations that write the context. -/
theorem C8_context_frame :
    (∀ st u r, (claude_parse_navigation_request st u r).2 = st) ∧
    (∀ st ui tools ctx r, (claude_select_mcp_tool st ui tools ctx r).2 = st) ∧
    (∀ st raw ei ctx r, (claude_parse_mcp_response st raw ei ctx r).2 = st) ∧
    (∀ st sc ec pref r, (claude_generate_navigation_url st sc ec pref r).2 = st) ∧
    (∀ st u r, (openai_parse_navigation_request st u r).2 = st) ∧
    (∀ st ui tools ctx r, (openai_select_mcp_tool st ui tools ctx r).2 = st) ∧
    (∀ st raw ei ctx r, (openai_parse_mcp_response st raw ei ctx r).2 = st) ∧
    (∀ st sc ec pref r, (openai_generate_navigation_url st sc ec pref r).2 = st) ∧
    (∀ st h s, set_context st h s = ⟨h, s⟩) ∧
    (∀ st, clear_context st = ⟨[], ""⟩) :=
  ⟨fun _ _ _ => rfl, fun _ _ _ _ _ => rfl, fun _ _ _ _ _ => rfl,
   fun _ _ _ _ _ => rfl, fun _ _ _ => rfl, fun _ _ _ _ _ => rfl,
   fun _ _ _ _ _ => rfl, fun _ _ _ _ _ => rfl, fun _ _ _ => rfl, fun _ => rfl⟩

/-! ### Claim C9 — the two providers are equivalent apart from transport -/

/-- C9.  For identical inputs the two provider implementations construct
character-for-character identical prompts and message lists, and for
identical backend response texts they produce identical results: the prompt
templates, the extraction logic and the URL assembly are duplicated verbatim
between the two classes. -/
theorem C9_provider_equivalence :
    (∀ u cs, claude_parse_navigation_prompt u cs = openai_parse_navigation_prompt u cs) ∧
    (∀ st u, claude_parse_navigation_messages st u = openai_parse_navigation_messages st u) ∧
    (∀ ui tools ctx,
      claude_select_mcp_tool_prompt ui tools ctx = openai_select_mcp_tool_prompt ui tools ctx) ∧
    (∀ raw ei ctx, claude_parse_mcp_prompt raw ei ctx = openai_parse_mcp_prompt raw ei ctx) ∧
    (∀ sc ec pref, claude_generate_nav_prompt sc ec pref = openai_generate_nav_prompt sc ec pref) ∧
    (∀ t, claude_parse_json_response t = openai_parse_json_response t) ∧
    (∀ st u r, claude_parse_navigation_request st u r = openai_parse_navigation_request st u r) ∧
    (∀ st ui tools ctx r,
      claude_select_mcp_tool st ui tools ctx r = openai_select_mcp_tool st ui tools ctx r) ∧
    (∀ st raw ei ctx r,
      claude_parse_mcp_response st raw ei ctx r = openai_parse_mcp_response st raw ei ctx r) ∧
    (∀ st sc ec pref r,
      claude_generate_navigation_url st sc ec pref r = openai_generate_navigation_url st sc ec pref r) :=
  ⟨fun _ _ => rfl, fun _ _ => rfl, fun _ _ _ => rfl, fun _ _ _ => rfl,
   fun _ _ _ => rfl, fun _ => rfl, fun _ _ _ => rfl, fun _ _ _ _ _ => rfl,
   fun _ _ _ _ _ => rfl, fun _ _ _ _ _ => rfl⟩

/-! ### Claim C5 — the assembled URL's query parameters -/

/-- Everything after the first `?` of a URL. -/
def dropToQuery : List Char → List Char
  | [] => []
  | c :: r => if c = '?' then r else dropToQuery r

/-- Split a query string at `&`. -/
def splitAmp : List Char → List (List Char)
  | [] => [[]]
  | c :: r =>
    if c = '&' then [] :: splitAmp r
    else
      match splitAmp r with
      | s :: ss => (c :: s) :: ss
      | [] => [[c]]

/-- Split one `key=value` segment at its first `=`. -/
def kvOf : List Char → List Char × List Char
  | [] => ([], [])
  | c :: r =>
    if c = '=' then ([], r)
    else ((c :: (kvOf r).1, (kvOf r).2))

/-- The key/value pairs of a URL's query string, in order. -/
def paramsOf (url : String) : List (String × String) :=
  (splitAmp (dropToQuery url.data)).map fun seg =>
    (String.mk (kvOf seg).1, String.mk (kvOf seg).2)

theorem dropToQuery_append {xs : List Char} (h : '?' ∉ xs) (ys : List Char) :
    dropToQuery (xs ++ '?' :: ys) = ys := by
  induction xs with
  | nil => simp [dropToQuery]
  | cons c r ih =>
    simp at h
    rw [List.cons_append]
    unfold dropToQuery
    rw [if_neg (fun he => h.1 he.symm), ih h.2]

theorem splitAmp_append {xs : List Char} (h : '&' ∉ xs) (ys : List Char) :
    splitAmp (xs ++ '&' :: ys) = xs :: splitAmp ys := by
  induction xs with
  | nil => simp [splitAmp]
  | cons c r ih =>
    simp at h
    rw [List.cons_append]
    show (if c = '&' then [] :: splitAmp (r ++ '&' :: ys)
      else
        match splitAmp (r ++ '&' :: ys) with
        | s :: ss => (c :: s) :: ss
        | [] => [[c]]) = (c :: r) :: splitAmp ys
    rw [if_neg (fun he => h.1 he.symm), ih h.2]

theorem splitAmp_noAmp {xs : List Char} (h : '&' ∉ xs) : splitAmp xs = [xs] := by
  induction xs with
  | nil => rfl
  | cons c r ih =>
    simp at h
    unfold splitAmp
    rw [if_neg (fun he => h.1 he.symm), ih h.2]

theorem kvOf_append {xs : List Char} (h : '=' ∉ xs) (ys : List Char) :
    kvOf (xs ++ '=' :: ys) = (xs, ys) := by
  induction xs with
  | nil => simp [kvOf]
  | cons c r ih =>
    simp at h
    rw [List.cons_append]
    unfold kvOf
    rw [if_neg (fun he => h.1 he.symm), ih h.2]

/-- A query string built from key/value pairs, `&`-separated, one `=` each. -/
def buildQuery : List (String × String) → String
  | [] => ""
  | [(k, v)] => k ++ "=" ++ v
  | (k, v) :: ps => k ++ "=" ++ v ++ "&" ++ buildQuery ps

theorem splitAmp_map_buildQuery : ∀ ps : List (String × String), ps ≠ [] →
    (∀ p ∈ ps, ('&' ∉ p.1.data ∧ '=' ∉ p.1.data) ∧ '&' ∉ p.2.data) →
    (splitAmp ((buildQuery ps).data)).map
      (fun seg => (String.mk (kvOf seg).1, String.mk (kvOf seg).2)) = ps := by
  intro ps
  induction ps with
  | nil => intro h _; exact absurd rfl h
  | cons p ps ih =>
    intro _ hkv
    obtain ⟨k, v⟩ := p
    obtain ⟨⟨hk1, hk2⟩, hv1⟩ := hkv (k, v) (by simp)
    cases ps with
    | nil =>
      have hseg : (buildQuery [(k, v)]).data = k.data ++ '=' :: v.data := by
        simp [buildQuery, String.data_append]
      rw [hseg, splitAmp_noAmp ?_]
      · simp only [List.map_cons, List.map_nil]
        rw [kvOf_append hk2]
      · intro hm
        rcases List.mem_append.mp hm with hm | hm
        · exact hk1 hm
        · rcases List.mem_cons.mp hm with hm | hm
          · exact absurd hm.symm (by decide)
          · exact hv1 hm
    | cons q qs =>
      have hseg : (buildQuery ((k, v) :: q :: qs)).data =
          (k.data ++ '=' :: v.data) ++ '&' :: (buildQuery (q :: qs)).data := by
        simp [buildQuery, String.data_append]
      rw [hseg, splitAmp_append ?_]
      · simp only [List.map_cons]
        rw [kvOf_append hk2]
        rw [ih (by simp) (fun p hp => hkv p (List.mem_cons_of_mem _ hp))]
      · intro hm
        rcases List.mem_append.mp hm with hm | hm
        · exact hk1 hm
        · rcases List.mem_cons.mp hm with hm | hm
          · exact absurd hm.symm (by decide)
          · exact hv1 hm

theorem paramsOf_buildQuery (base : String) (hbase : '?' ∉ base.data)
    (ps : List (String × String)) (hne : ps ≠ [])
    (hkv : ∀ p ∈ ps, ('&' ∉ p.1.data ∧ '=' ∉ p.1.data) ∧ '&' ∉ p.2.data) :
    paramsOf (base ++ "?" ++ buildQuery ps) = ps := by
  unfold paramsOf
  have hdata : (base ++ "?" ++ buildQuery ps).data =
      base.data ++ '?' :: (buildQuery ps).data := by
    simp [String.data_append]
  rw [hdata, dropToQuery_append hbase]
  exact splitAmp_map_buildQuery ps hne hkv

/-- A string free of the query metacharacters `&` and `=`. -/
def cleanStr (s : String) : Bool :=
  s.data.all fun c => c ≠ '&' && c ≠ '='

theorem cleanStr_not_mem {s : String} (h : cleanStr s = true) :
    '&' ∉ s.data ∧ '=' ∉ s.data := by
  rw [cleanStr, List.all_eq_true] at h
  constructor
  · intro hm
    have := h _ hm
    simp at this
  · intro hm
    have := h _ hm
    simp at this

theorem openai_claude_url_eq :
    openai_navigation_url = claude_navigation_url := rfl

/-- The assembled URL, re-expressed as a base plus a `buildQuery` rendering
of its nine key/value pairs in order. -/
theorem claude_navigation_url_shape (s e : Coords) (params : List (String × Jv)) :
    claude_navigation_url s e params =
    "https://uri.amap.com/navigation" ++ "?" ++ buildQuery
      [("from", s.longitude ++ "," ++ s.latitude),
       ("to", e.longitude ++ "," ++ e.latitude),
       ("sname", urlQuote s.name),
       ("dname", urlQuote e.name),
       ("mode", pyStr (jget params "mode" (Jv.str "car"))),
       ("policy", pyStr (jget params "policy" (Jv.num 1))),
       ("src", "ai-navigator"),
       ("coordinate", "gaode"),
       ("callnative", pyStr (jget params "callnative" (Jv.num 1)))] := by
  apply stringExt
  simp only [claude_navigation_url, buildQuery, String.data_append, List.append_assoc]
  rfl

/-- C5: for every pair of start/end coordinate records and every
backend-chosen parameter object (whose rendered mode/policy/callnative
values, like real coordinate strings, contain no `&` or `=`), the URL
assembled by `generate_navigation_url` — in both providers — carries
exactly the query parameters `from, to, sname, dname, mode, policy, src,
coordinate, callnative` in that fixed order; `from`/`to`/`mode`/`policy`/
`callnative` are always present, and `from` and `to` are exactly the
supplied longitude,latitude pairs in that order. -/
theorem C5_url_query_parameters (s e : Coords) (params : List (String × Jv))
    (hlon1 : cleanStr s.longitude = true) (hlat1 : cleanStr s.latitude = true)
    (hlon2 : cleanStr e.longitude = true) (hlat2 : cleanStr e.latitude = true)
    (hmode : cleanStr (pyStr (jget params "mode" (Jv.str "car"))) = true)
    (hpolicy : cleanStr (pyStr (jget params "policy" (Jv.num 1))) = true)
    (hcall : cleanStr (pyStr (jget params "callnative" (Jv.num 1))) = true) :
    paramsOf (claude_navigation_url s e params) =
      [("from", s.longitude ++ "," ++ s.latitude),
       ("to", e.longitude ++ "," ++ e.latitude),
       ("sname", urlQuote s.name),
       ("dname", urlQuote e.name),
       ("mode", pyStr (jget params "mode" (Jv.str "car"))),
       ("policy", pyStr (jget params "policy" (Jv.num 1))),
       ("src", "ai-navigator"),
       ("coordinate", "gaode"),
       ("callnative", pyStr (jget params "callnative" (Jv.num 1)))] ∧
    paramsOf (openai_navigation_url s e params) =
      [("from", s.longitude ++ "," ++ s.latitude),
       ("to", e.longitude ++ "," ++ e.latitude),
       ("sname", urlQuote s.name),
       ("dname", urlQuote e.name),
       ("mode", pyStr (jget params "mode" (Jv.str "car"))),
       ("policy", pyStr (jget params "policy" (Jv.num 1))),
       ("src", "ai-navigator"),
       ("coordinate", "gaode"),
       ("callnative", pyStr (jget params "callnative" (Jv.num 1)))] := by
  have hmain : paramsOf (claude_navigation_url s e params) =
      [("from", s.longitude ++ "," ++ s.latitude),
       ("to", e.longitude ++ "," ++ e.latitude),
       ("sname", urlQuote s.name),
       ("dname", urlQuote e.name),
       ("mode", pyStr (jget params "mode" (Jv.str "car"))),
       ("policy", pyStr (jget params "policy" (Jv.num 1))),
       ("src", "ai-navigator"),
       ("coordinate", "gaode"),
       ("callnative", pyStr (jget params "callnative" (Jv.num 1)))] := by
    rw [claude_navigation_url_shape]
    apply paramsOf_buildQuery
    · decide
    · simp
    · intro p hp
      have hpair : ∀ a b : String, '&' ∉ a.data → '&' ∉ b.data →
          '&' ∉ (a ++ "," ++ b).data := by
        intro a b ha hb hm
        simp only [String.data_append] at hm
        rcases List.mem_append.mp hm with hm | hm
        · rcases List.mem_append.mp hm with hm | hm
          · exact ha hm
          · exact absurd hm (by decide)
        · exact hb hm
      have hq : ∀ t : String, '&' ∉ (urlQuote t).data := by
        intro t hm
        exact (urlQuote_clean t _ hm).1 rfl
      simp only [List.mem_cons, List.not_mem_nil, or_false] at hp
      rcases hp with hp | hp | hp | hp | hp | hp | hp | hp | hp
      all_goals subst hp
      · exact ⟨(by decide : '&' ∉ ("from" : String).data ∧ '=' ∉ ("from" : String).data),
          hpair _ _ (cleanStr_not_mem hlon1).1 (cleanStr_not_mem hlat1).1⟩
      · exact ⟨(by decide : '&' ∉ ("to" : String).data ∧ '=' ∉ ("to" : String).data),
          hpair _ _ (cleanStr_not_mem hlon2).1 (cleanStr_not_mem hlat2).1⟩
      · exact ⟨(by decide : '&' ∉ ("sname" : String).data ∧ '=' ∉ ("sname" : String).data), hq _⟩
      · exact ⟨(by decide : '&' ∉ ("dname" : String).data ∧ '=' ∉ ("dname" : String).data), hq _⟩
      · exact ⟨(by decide : '&' ∉ ("mode" : String).data ∧ '=' ∉ ("mode" : String).data),
          (cleanStr_not_mem hmode).1⟩
      · exact ⟨(by decide : '&' ∉ ("policy" : String).data ∧ '=' ∉ ("policy" : String).data),
          (cleanStr_not_mem hpolicy).1⟩
      · exact ⟨(by decide : '&' ∉ ("src" : String).data ∧ '=' ∉ ("src" : String).data),
          (by decide : '&' ∉ ("ai-navigator" : String).data)⟩
      · exact ⟨(by decide : '&' ∉ ("coordinate" : String).data ∧ '=' ∉ ("coordinate" : String).data),
          (by decide : '&' ∉ ("gaode" : String).data)⟩
      · exact ⟨(by decide : '&' ∉ ("callnative" : String).data ∧ '=' ∉ ("callnative" : String).data),
          (cleanStr_not_mem hcall).1⟩
  exact ⟨hmain, by rw [openai_claude_url_eq]; exact hmain⟩

theorem C5_witness :
    (cleanStr "116.4" = true ∧ cleanStr "39.9" = true ∧
     cleanStr "121.47" = true ∧ cleanStr "31.23" = true ∧
     cleanStr (pyStr (jget [("mode", Jv.str "walk"), ("policy", Jv.str "2"),
       ("callnative", Jv.str "0")] "mode" (Jv.str "car"))) = true ∧
     cleanStr (pyStr (jget [("mode", Jv.str "walk"), ("policy", Jv.str "2"),
       ("callnative", Jv.str "0")] "policy" (Jv.num 1))) = true ∧
     cleanStr (pyStr (jget [("mode", Jv.str "walk"), ("policy", Jv.str "2"),
       ("callnative", Jv.str "0")] "callnative" (Jv.num 1))) = true) ∧
    (paramsOf (claude_navigation_url ⟨"A.1", "116.4", "39.9"⟩
        ⟨"B-2", "121.47", "31.23"⟩
        [("mode", Jv.str "walk"), ("policy", Jv.str "2"),
         ("callnative", Jv.str "0")]) =
      [("from", "116.4,39.9"), ("to", "121.47,31.23"),
       ("sname", "A.1"), ("dname", "B-2"), ("mode", "walk"),
       ("policy", "2"), ("src", "ai-navigator"), ("coordinate", "gaode"),
       ("callnative", "0")] ∧
     paramsOf (openai_navigation_url ⟨"A.1", "116.4", "39.9"⟩
        ⟨"B-2", "121.47", "31.23"⟩
        [("mode", Jv.str "walk"), ("policy", Jv.str "2"),
         ("callnative", Jv.str "0")]) =
      [("from", "116.4,39.9"), ("to", "121.47,31.23"),
       ("sname", "A.1"), ("dname", "B-2"), ("mode", "walk"),
       ("policy", "2"), ("src", "ai-navigator"), ("coordinate", "gaode"),
       ("callnative", "0")]) :=
  ⟨⟨by decide, by decide, by decide, by decide, by decide, by decide, by decide⟩,
   C5_url_query_parameters ⟨"A.1", "116.4", "39.9"⟩ ⟨"B-2", "121.47", "31.23"⟩
     [("mode", Jv.str "walk"), ("policy", Jv.str "2"), ("callnative", Jv.str "0")]
     (by decide) (by decide) (by decide) (by decide) (by decide) (by decide)
     (by decide)⟩

/-! ### `create_ai_provider` (factory from environment variables) -/

/-- Lower-casing of one ASCII character (`str.lower` on the inputs at
issue). -/
def lowerChar (c : Char) : Char :=
  if 'A' ≤ c ∧ c ≤ 'Z' then Char.ofNat (c.toNat + 32) else c

/-- `provider_type.lower()`. -/
def pyLower (s : String) : String :=
  String.mk (s.data.map lowerChar)

/-- `base_url.rstrip('/')`. -/
def rstripSlash (s : String) : String :=
  String.mk ((s.data.reverse.dropWhile fun c => c = '/').reverse)

/-- The provider object `create_ai_provider` constructs: a `ClaudeProvider`
holds its API key (model fixed), an `OpenAICompatibleProvider` holds key,
normalized base URL and model. -/
inductive AIProviderInstance where
  | claude (api_key : String)
  | openaiCompatible (api_key base_url model : String)
deriving Repr, DecidableEq

/-- `create_ai_provider` over an environment `env` (a variable is `none`
when unset).  `os.getenv` with a default substitutes it only when the
variable is unset; the `if not api_key` truthiness checks treat an unset
and an empty variable alike, which `Option.getD ""` captures. -/
def create_ai_provider (env : String → Option String) :
    Except String AIProviderInstance :=
  if pyLower ((env "AI_PROVIDER").getD "anthropic") = "anthropic" then
    if (env "ANTHROPIC_API_KEY").getD "" = "" then
      Except.error "ANTHROPIC_API_KEY environment variable not set"
    else Except.ok (AIProviderInstance.claude ((env "ANTHROPIC_API_KEY").getD ""))
  else if pyLower ((env "AI_PROVIDER").getD "anthropic") = "openai" then
    if (env "OPENAI_API_KEY").getD "" = "" then
      Except.error "OPENAI_API_KEY environment variable not set"
    else if (env "OPENAI_BASE_URL").getD "" = "" then
      Except.error "OPENAI_BASE_URL environment variable not set"
    else Except.ok (AIProviderInstance.openaiCompatible
      ((env "OPENAI_API_KEY").getD "")
      (rstripSlash ((env "OPENAI_BASE_URL").getD ""))
      ((env "OPENAI_MODEL").getD "gpt-3.5-turbo"))
  else
    Except.error ("Unsupported AI provider: "
      ++ pyLower ((env "AI_PROVIDER").getD "anthropic")
      ++ ". Use 'anthropic' or 'openai'")

/-- C6 counterexample: with `AI_PROVIDER` unset (and an Anthropic key
present) `create_ai_provider` silently defaults to the anthropic provider
and succeeds — a missing `AI_PROVIDER` is not a configuration error, contra
the claim.  The repository's own test
`test_create_provider_default_to_anthropic` confirms the default is
intended. -/
theorem C6_counterexample :
    create_ai_provider
      (fun k => if k = "ANTHROPIC_API_KEY" then some "sk-test" else none) =
    Except.ok (AIProviderInstance.claude "sk-test") := rfl

/-- C6 (amended): whenever the (lower-cased, defaulted) provider type is
neither `anthropic` nor `openai`, or the provider-specific required
credentials are unset or empty, `create_ai_provider` raises a
`ValueError` before any network call; only the `AI_PROVIDER` variable
itself has a silent default (`anthropic`). -/
theorem C6_amended_configuration_errors (env : String → Option String)
    (h : (pyLower ((env "AI_PROVIDER").getD "anthropic") ≠ "anthropic" ∧
          pyLower ((env "AI_PROVIDER").getD "anthropic") ≠ "openai") ∨
         (pyLower ((env "AI_PROVIDER").getD "anthropic") = "anthropic" ∧
          (env "ANTHROPIC_API_KEY").getD "" = "") ∨
         (pyLower ((env "AI_PROVIDER").getD "anthropic") = "openai" ∧
          ((env "OPENAI_API_KEY").getD "" = "" ∨
           (env "OPENAI_BASE_URL").getD "" = ""))) :
    ∃ m, create_ai_provider env = Except.error m := by
  unfold create_ai_provider
  rcases h with ⟨h1, h2⟩ | ⟨h1, h2⟩ | ⟨h1, h2⟩
  · rw [if_neg h1, if_neg h2]
    exact ⟨_, rfl⟩
  · rw [if_pos h1, if_pos h2]
    exact ⟨_, rfl⟩
  · have hne : pyLower ((env "AI_PROVIDER").getD "anthropic") ≠ "anthropic" := by
      rw [h1]
      decide
    rw [if_neg hne, if_pos h1]
    rcases h2 with h2 | h2
    · rw [if_pos h2]
      exact ⟨_, rfl⟩
    · by_cases h3 : (env "OPENAI_API_KEY").getD "" = ""
      · rw [if_pos h3]
        exact ⟨_, rfl⟩
      · rw [if_neg h3, if_pos h2]
        exact ⟨_, rfl⟩

theorem C6_witness :
    ((pyLower (((fun k => if k = "AI_PROVIDER" then some "Gemini" else none)
        "AI_PROVIDER").getD "anthropic") ≠ "anthropic" ∧
      pyLower (((fun k => if k = "AI_PROVIDER" then some "Gemini" else none)
        "AI_PROVIDER").getD "anthropic") ≠ "openai")) ∧
    ∃ m, create_ai_provider
      (fun k => if k = "AI_PROVIDER" then some "Gemini" else none) =
      Except.error m :=
  ⟨by decide,
   C6_amended_configuration_errors
     (fun k => if k = "AI_PROVIDER" then some "Gemini" else none)
     (Or.inl (by decide))⟩

/-! ### `AINavigationSystem._parse_with_regex` -/

/-- Boolean prefix test on character lists. -/
def listStartsWith : List Char → List Char → Bool
  | [], _ => true
  | _ :: _, [] => false
  | p :: ps, c :: cs => p == c && listStartsWith ps cs

/-- Python `in` on strings: `pat` occurs as a contiguous substring. -/
def hasSub (pat : List Char) : List Char → Bool
  | [] => listStartsWith pat []
  | c :: r => listStartsWith pat (c :: r) || hasSub pat r

/-- Matching of the trailing `(.+?)$` of the patterns: `.` never matches a
newline and `$` matches at the end of the string or just before a final
newline, so the lazy group is forced to cover exactly the rest (or the rest
less one trailing newline) and must be newline-free and non-empty. -/
def tailMatch (rest : List Char) : Option (List Char) :=
  if rest.getLast? = some '\n' then
    if rest.dropLast.contains '\n' || rest.dropLast.isEmpty then none
    else some rest.dropLast
  else
    if rest.contains '\n' || rest.isEmpty then none
    else some rest

/-- Backtracking scan for `(.+?)sep(.+?)$` from a fixed start: the lazy
first group grows character by character (never across a newline); at each
occurrence of `sep` after at least one group character the tail is tried,
and on tail failure the separator character itself is absorbed into the
first group. -/
def sepScan (sep : Char) : List Char → List Char → Option (List Char × List Char)
  | _, [] => none
  | acc, c :: r =>
    if c = sep ∧ acc ≠ [] then
      match tailMatch r with
      | some y => some (acc.reverse, y)
      | none => if c = '\n' then none else sepScan sep (c :: acc) r
    else if c = '\n' then none
    else sepScan sep (c :: acc) r

/-- `re.search` for `从(.+?)sep(.+?)$`: try each start position from the
left; a start must be a literal `从`. -/
def searchFrom (sep : Char) : List Char → Option (List Char × List Char)
  | [] => none
  | c :: r =>
    if c = '从' then
      match sepScan sep [] r with
      | some p => some p
      | none => searchFrom sep r
    else searchFrom sep r

/-- `re.search` for `(.+?)sep(.+?)$`: try each start position from the
left. -/
def searchSep (sep : Char) : List Char → Option (List Char × List Char)
  | [] => none
  | c :: r =>
    match sepScan sep [] (c :: r) with
    | some p => some p
    | none => searchSep sep r

/-- One attempt of the alternation `(?:去|到|导航到|导航去)(.+?)$` at a fixed
position (the four alternatives have mutually exclusive prefixes here). -/
def tryAlt (s : List Char) : Option (List Char) :=
  if listStartsWith ['去'] s then tailMatch (s.drop 1)
  else if listStartsWith ['到'] s then tailMatch (s.drop 1)
  else if listStartsWith ['导', '航', '到'] s then tailMatch (s.drop 3)
  else if listStartsWith ['导', '航', '去'] s then tailMatch (s.drop 3)
  else none

/-- `re.search` for the destination-only fallback pattern
`(?:去|到|导航到|导航去)(.+?)$`. -/
def altScan : List Char → Option (List Char)
  | [] => none
  | c :: r =>
    match tryAlt (c :: r) with
    | some y => some y
    | none => altScan r

/-- Replacement of every occurrence of `pat` by the empty string, fuelled
by the input length (each step consumes at least one character). -/
def replaceFuel (pat : List Char) : Nat → List Char → List Char
  | _, [] => []
  | 0, s => s
  | fuel + 1, c :: r =>
    if listStartsWith pat (c :: r) then
      replaceFuel pat fuel (List.drop (pat.length - 1) r)
    else c :: replaceFuel pat fuel r

/-- Python `s.replace(pat, "")`. -/
def pyReplace (s pat : String) : String :=
  String.mk (replaceFuel pat.data s.data.length s.data)

/-- The fixed stopword list of `_parse_with_regex`. -/
def stopwords : List String := ["百度", "高德", "地图", "导航", "用", "帮我", "请"]

/-- One iteration of the stopword loop on one slot: the slot is only
rewritten when it is truthy (non-`None` and non-empty), and each rewrite is
`replace(keyword, "").strip()`. -/
def stripStep (kw : String) : Option String → Option String
  | none => none
  | some s => if s = "" then some s else some (pyStrip (pyReplace s kw))

/-- The whole stopword loop on one slot. -/
def stripStopwords (o : Option String) : Option String :=
  stopwords.foldl (fun acc kw => stripStep kw acc) o

/-- The pattern cascade: the four patterns are tried in order and the first
match wins. -/
def patternSearch (s : List Char) : Option (List Char × List Char) :=
  match searchFrom '到' s with
  | some p => some p
  | none =>
    match searchFrom '去' s with
    | some p => some p
    | none =>
      match searchSep '到' s with
      | some p => some p
      | none => searchSep '去' s

/-- Map-service detection: `"百度" in user_input or "baidu" in
user_input.lower()`. -/
def mapServiceOf (user_input : String) : String :=
  if hasSub "百度".data user_input.data
      || hasSub "baidu".data (pyLower user_input).data then "baidu"
  else "amap"

/-- Python truthiness of an optional string. -/
def optStrTruthy : Option String → Bool
  | none => false
  | some s => decide (s ≠ "")

/-- The trailing-clause fallback: when the destination slot is falsy after
the pattern cascade, a match of the destination-only pattern overwrites
it. -/
def destFallback (user_input : String) (d : Option String) : Option String :=
  if optStrTruthy d then d
  else
    match altScan user_input.data with
    | some y => some (pyStrip (String.mk y))
    | none => d

/-- The dict `_parse_with_regex` returns. -/
structure RegexParseResult where
  origin : Option String
  destination : Option String
  map_service : String
deriving Repr, DecidableEq

/-- `AINavigationSystem._parse_with_regex`: map-service detection, the
pattern cascade with `.strip()` on both groups, the destination-only
fallback, then the stopword loop on both slots. -/
def parseWithRegex (user_input : String) : RegexParseResult :=
  ⟨stripStopwords ((patternSearch user_input.data).map
      fun p => pyStrip (String.mk p.1)),
   stripStopwords (destFallback user_input
     ((patternSearch user_input.data).map fun p => pyStrip (String.mk p.2))),
   mapServiceOf user_input⟩

/-- C7 counterexample: on `"从A去B到  "` the first pattern matches with
`X = "A去B"` and `Y = "  "` (two spaces), but the whitespace-only
destination fails the truthiness guard, so the trailing-clause fallback
overwrites it with `"B到"` — which is not `Y` with stopwords stripped
(that is the empty string).  The claim's equation for the destination is
therefore false. -/
theorem C7_counterexample :
    searchFrom '到' ("从A去B到  ").data = some ("A去B".data, "  ".data) ∧
    (parseWithRegex "从A去B到  ").destination = some "B到" ∧
    stripStopwords (some (pyStrip "  ")) ≠ some "B到" :=
  ⟨by decide, by decide, by decide⟩

/-- C7 (amended): whenever `从(.+?)到(.+?)$` matches with groups `X, Y` —
or it fails and `从(.+?)去(.+?)$` matches with groups `X, Y` — and the
stripped destination group is non-empty (so the fallback clause does not
fire), `_parse_with_regex` returns exactly origin =
`X.strip()`-with-stopwords-stripped and destination =
`Y.strip()`-with-stopwords-stripped. -/
theorem C7_amended_pattern_extraction (input : String) (X Y : List Char)
    (h : searchFrom '到' input.data = some (X, Y) ∨
         (searchFrom '到' input.data = none ∧
          searchFrom '去' input.data = some (X, Y)))
    (hY : pyStrip (String.mk Y) ≠ "") :
    (parseWithRegex input).origin = stripStopwords (some (pyStrip (String.mk X))) ∧
    (parseWithRegex input).destination =
      stripStopwords (some (pyStrip (String.mk Y))) := by
  have hps : patternSearch input.data = some (X, Y) := by
    unfold patternSearch
    rcases h with h | ⟨h1, h2⟩
    · rw [h]
    · rw [h1, h2]
  constructor
  · simp only [parseWithRegex, hps, Option.map_some']
  · simp only [parseWithRegex, hps, Option.map_some']
    have hd : destFallback input (some (pyStrip (String.mk Y))) =
        some (pyStrip (String.mk Y)) := by
      simp [destFallback, optStrTruthy, hY]
    rw [hd]

theorem C7_witness :
    (searchFrom '到' ("用百度从北京西站到颐和园").data =
       some ("北京西站".data, "颐和园".data) ∧
     pyStrip (String.mk ("颐和园".data)) ≠ "") ∧
    ((parseWithRegex "用百度从北京西站到颐和园").origin =
       stripStopwords (some (pyStrip (String.mk ("北京西站".data)))) ∧
     (parseWithRegex "用百度从北京西站到颐和园").destination =
       stripStopwords (some (pyStrip (String.mk ("颐和园".data))))) :=
  ⟨⟨by decide, by decide⟩,
   C7_amended_pattern_extraction "用百度从北京西站到颐和园"
     ("北京西站".data) ("颐和园".data) (Or.inl (by decide)) (by decide)⟩
